import Mathlib

/-!
Verification development for the syslog-ng statistics registry (`lib/stats.c`).

The C module keeps a process-wide hash table (`counter_hash`) that maps counter
keys `(source, id, instance)` to `StatsCounter` records.  Each record holds one
value slot per counter sub-type, a 16-bit reference count, a "dynamic" flag and
a bitmask of live sub-types.  This file gives a shallow embedding of that
module: the hash table becomes an association list from allocation identifiers
(standing for the C heap addresses) to records, and each C function becomes a
state-passing Lean function.  Fatal `g_assert` failures are modelled by an
`Option` result, `none` meaning the assertion aborts the process.

Machine integers: `ref_cnt`, `source` and `live_mask` are `guint16` in C, so
reference-count arithmetic is done modulo 2^16 where the C code can overflow.
Counter value slots are modelled as `Nat` (stats.h's accumulator interface).
-/

namespace SyslogNgStats

/-- Counter sub-types, in the index order of the C `StatsCounterType` enum
(the order documented by the `tag_names` initialiser in `stats.c`):
DROPPED = 0, PROCESSED = 1, STORED = 2, SUPPRESSED = 3, STAMP = 4. -/
inductive SCType
  | dropped
  | processed
  | stored
  | suppressed
  | stamp
  deriving DecidableEq

/-- Index of a sub-type, as used for `1 << type` bit operations in C. -/
def SCType.toNat : SCType → Nat
  | .dropped => 0
  | .processed => 1
  | .stored => 2
  | .suppressed => 3
  | .stamp => 4

/-- Value of `SC_TYPE_MAX` in the C enum. -/
def SC_TYPE_MAX : Nat := 5

/-- The `StatsCounterItem counters[SC_TYPE_MAX]` array of one record, one
accumulator value per sub-type. -/
structure CounterSlots where
  dropped : Nat
  processed : Nat
  stored : Nat
  suppressed : Nat
  stamp : Nat
  deriving DecidableEq

/-- Zero-initialised slots (`g_new0`). -/
def CounterSlots.zero : CounterSlots := ⟨0, 0, 0, 0, 0⟩

/-- Read the slot of one sub-type (`sc->counters[type].value`). -/
def CounterSlots.get (cs : CounterSlots) : SCType → Nat
  | .dropped => cs.dropped
  | .processed => cs.processed
  | .stored => cs.stored
  | .suppressed => cs.suppressed
  | .stamp => cs.stamp

/-- Write the slot of one sub-type. -/
def CounterSlots.set (cs : CounterSlots) : SCType → Nat → CounterSlots
  | .dropped, v => { cs with dropped := v }
  | .processed, v => { cs with processed := v }
  | .stored, v => { cs with stored := v }
  | .suppressed, v => { cs with suppressed := v }
  | .stamp, v => { cs with stamp := v }

/-- One registry record, `struct _StatsCounter`:
`counters`, `ref_cnt : guint16`, `source : guint16`, `id`, `instance`,
`live_mask : guint16`, `dynamic : 1 bit`. -/
structure StatsCounter where
  counters : CounterSlots
  ref_cnt : Nat
  source : Nat
  id : String
  instance_ : String
  live_mask : Nat
  dynamic : Bool
  deriving DecidableEq

/-- Global mutable state of the module: `counter_hash` (association list from
allocation identifier to record; the identifier stands for the C heap address
of the record, which is stable from `g_new0` until the pruning sweep frees it),
the next fresh allocation identifier, and the global `current_stats_level`. -/
structure StatsState where
  counter_hash : List (Nat × StatsCounter)
  next_id : Nat
  current_stats_level : Int
  deriving DecidableEq

/-- A counter handle: the address `&sc->counters[type]` that the C API hands
out, modelled as the record's allocation identifier paired with the sub-type. -/
abbrev CounterRef := Nat × SCType

/-- Modelled from the spec: `stats_check_level` (declared in `stats.h`, which is
not part of this source snapshot).  Per the glossary, a counter registers only
if the active stats level is numerically at least the counter's required
level. -/
def stats_check_level (st : StatsState) (level : Int) : Bool :=
  st.current_stats_level ≥ level

/-- Key equality, `stats_counter_equal`: same `source`, same `id` string, same
`instance` string. -/
def keyMatches (source : Nat) (id inst : String) (sc : StatsCounter) : Bool :=
  sc.source == source && sc.id == id && sc.instance_ == inst

/-- First record matching a key, `g_hash_table_lookup(counter_hash, &key)`
(keys are unique in every reachable state, so "first" is "the"). -/
def lookupKey (h : List (Nat × StatsCounter)) (source : Nat) (id inst : String) :
    Option (Nat × StatsCounter) :=
  match h with
  | [] => none
  | p :: rest =>
      if keyMatches source id inst p.2 then some p else lookupKey rest source id inst

/-- Dereference a record by its allocation identifier (following a stored
`StatsCounter *`). -/
def lookupRid (h : List (Nat × StatsCounter)) (rid : Nat) : Option (Nat × StatsCounter) :=
  match h with
  | [] => none
  | p :: rest => if p.1 = rid then some p else lookupRid rest rid

/-- In-place mutation of the record behind an allocation identifier. -/
def modifyRecord (h : List (Nat × StatsCounter)) (rid : Nat) (f : StatsCounter → StatsCounter) :
    List (Nat × StatsCounter) :=
  match h with
  | [] => []
  | p :: rest =>
      (if p.1 = rid then (p.1, f p.2) else p) :: modifyRecord rest rid f

/-- Allocation identifiers in the map are all below `next_id` (true of every
state the C module can reach: addresses of live records are distinct and a
fresh allocation is distinct from all of them). -/
def freshState (st : StatsState) : Prop :=
  ∀ p ∈ st.counter_hash, p.1 < st.next_id

/-- `stats_add_counter` (stats.c:127-170).  Returns `none` when the configured
stats level does not admit the counter (no side effect), otherwise the record's
identifier, the record as stored after the call, and the `*new` flag, together
with the updated state.  A missing record is allocated with `ref_cnt = 1`; an
existing record gets `ref_cnt++` (16-bit) and reports `*new = TRUE` exactly
when it was orphaned (`ref_cnt == 0`). -/
def stats_add_counter (st : StatsState) (stats_level : Int) (source : Nat)
    (id instance_ : Option String) :
    Option (Nat × StatsCounter × Bool) × StatsState :=
  if !stats_check_level st stats_level then (none, st)
  else
    let id := id.getD ""
    let instance_ := instance_.getD ""
    let source := source % 65536
    match lookupKey st.counter_hash source id instance_ with
    | none =>
        let sc : StatsCounter :=
          { counters := CounterSlots.zero, ref_cnt := 1, source := source, id := id,
            instance_ := instance_, live_mask := 0, dynamic := false }
        let h' := st.counter_hash ++ [(st.next_id, sc)]
        (some (st.next_id, sc, true),
         { st with counter_hash := h', next_id := st.next_id + 1 })
    | some (rid, sc) =>
        let sc' := { sc with ref_cnt := (sc.ref_cnt + 1) % 65536 }
        let h' := modifyRecord st.counter_hash rid
          fun r => { r with ref_cnt := (r.ref_cnt + 1) % 65536 }
        (some (rid, sc', sc.ref_cnt == 0), { st with counter_hash := h' })

/-- `stats_register_counter` (stats.c:188-204).  `*counter` is `NULL` when the
stats level rejects the registration; otherwise the handle to the sub-type's
slot is returned and the record's live-mask bit for `type` is set. -/
def stats_register_counter (st : StatsState) (stats_level : Int) (source : Nat)
    (id instance_ : Option String) (type : SCType) :
    Option CounterRef × StatsState :=
  match stats_add_counter st stats_level source id instance_ with
  | (none, st') => (none, st')
  | (some (rid, _, _), st') =>
      let h' := modifyRecord st'.counter_hash rid
        fun r => { r with live_mask := r.live_mask ||| (1 <<< type.toNat) }
      (some (rid, type), { st' with counter_hash := h' })

/-- `stats_register_dynamic_counter` (stats.c:206-230).  Outer `none` is the
`g_assert_not_reached()` abort, hit when the found record is live
(`local_new = FALSE`, i.e. `ref_cnt > 0`) and not dynamic.  On a stats-level
rejection the C code leaves `*new` with the uninitialised `local_new`; the
model uses `false` there (the value is meaningless in C as well). -/
def stats_register_dynamic_counter (st : StatsState) (stats_level : Int) (source : Nat)
    (id instance_ : Option String) (type : SCType) :
    Option (Option Nat × Option CounterRef × Bool × StatsState) :=
  match stats_add_counter st stats_level source id instance_ with
  | (none, st') => some (none, none, false, st')
  | (some (rid, sc, local_new), st') =>
      if !local_new && !sc.dynamic then none
      else
        let h' := modifyRecord st'.counter_hash rid
          fun r => { r with dynamic := true, live_mask := r.live_mask ||| (1 <<< type.toNat) }
        some (some rid, some (rid, type), local_new, { st' with counter_hash := h' })

/-- `stats_register_associated_counter` (stats.c:266-279).  `sc = none` (NULL
family pointer) leaves the state alone and returns a `NULL` handle; a non-null,
non-dynamic family is `g_assert(sc->dynamic)` → abort (`none`).  Otherwise the
live-mask bit is set and `ref_cnt++`.  Dereferencing an identifier that is not
in the map would be a dangling C pointer, outside the model (`none`). -/
def stats_register_associated_counter (st : StatsState) (sc : Option Nat) (type : SCType) :
    Option (Option CounterRef × StatsState) :=
  match sc with
  | none => some (none, st)
  | some rid =>
      match lookupRid st.counter_hash rid with
      | none => none
      | some (_, r) =>
          if !r.dynamic then none
          else
            let h' := modifyRecord st.counter_hash rid
              fun r => { r with live_mask := r.live_mask ||| (1 <<< type.toNat), ref_cnt := (r.ref_cnt + 1) % 65536 }
            some (some (rid, type), { st with counter_hash := h' })

/-- `stats_unregister_counter` (stats.c:281-307).  A `NULL` `*counter` returns
immediately.  Otherwise the key is re-derived and the call asserts that a
record exists, its live-mask bit for `type` is set and the stored slot address
`&sc->counters[type]` equals the incoming handle (abort → `none`).  On success
the caller's handle is cleared (`*counter = NULL`) and `ref_cnt--` (16-bit).
The record itself is never removed. -/
def stats_unregister_counter (st : StatsState) (source : Nat) (id instance_ : Option String)
    (type : SCType) (counter : Option CounterRef) :
    Option (Option CounterRef × StatsState) :=
  match counter with
  | none => some (none, st)
  | some c =>
      let id := id.getD ""
      let instance_ := instance_.getD ""
      let source := source % 65536
      match lookupKey st.counter_hash source id instance_ with
      | none => none
      | some (rid, sc) =>
          if sc.live_mask &&& (1 <<< type.toNat) == 0 then none
          else if c ≠ (rid, type) then none
          else
            let h' := modifyRecord st.counter_hash rid
              fun r => { r with ref_cnt := (r.ref_cnt + 65535) % 65536 }
            some (none, { st with counter_hash := h' })

/-- `stats_unregister_dynamic_counter` (stats.c:309-317).  A `NULL` family
pointer returns immediately (the caller's item handle is not touched — note the
C code never clears `*counter` on this path, unlike the static variant).
Otherwise the same live-mask/slot-address assertion as the static variant, then
`ref_cnt--`. -/
def stats_unregister_dynamic_counter (st : StatsState) (sc : Option Nat) (type : SCType)
    (counter : Option CounterRef) :
    Option (Option CounterRef × StatsState) :=
  match sc with
  | none => some (counter, st)
  | some rid =>
      match lookupRid st.counter_hash rid with
      | none => none
      | some (_, r) =>
          if r.live_mask &&& (1 <<< type.toNat) == 0 then none
          else if counter ≠ some (rid, type) then none
          else
            let h' := modifyRecord st.counter_hash rid
              fun r => { r with ref_cnt := (r.ref_cnt + 65535) % 65536 }
            some (counter, { st with counter_hash := h' })

/-- Modelled from the spec: `stats_counter_inc` (an inline accessor of
`stats.h`, not part of this snapshot) — an atomic increment of one counter
value slot; per the spec's error-handling design, incrementing through an
absent (`NULL`) handle is a safe no-op. -/
def stats_counter_inc (st : StatsState) (counter : Option CounterRef) : StatsState :=
  match counter with
  | none => st
  | some (rid, t) =>
      let h' := modifyRecord st.counter_hash rid
        fun r => { r with counters := r.counters.set t (r.counters.get t + 1) }
      { st with counter_hash := h' }

/-- Modelled from the spec: `stats_counter_set` from `stats.h` — store a value
into one counter slot (used with the non-negative STAMP timestamp); a `NULL`
handle is a safe no-op. -/
def stats_counter_set (st : StatsState) (counter : Option CounterRef) (v : Nat) : StatsState :=
  match counter with
  | none => st
  | some (rid, t) =>
      let h' := modifyRecord st.counter_hash rid
        fun r => { r with counters := r.counters.set t v }
      { st with counter_hash := h' }

/-- `stats_register_and_increment_dynamic_counter` (stats.c:238-255): register
(or find) the PROCESSED sub-type dynamically, increment it, and when
`timestamp >= 0` register the STAMP sub-type, set it to the timestamp and
unregister it again; finally unregister the PROCESSED sub-type. -/
def stats_register_and_increment_dynamic_counter (st : StatsState) (stats_level : Int)
    (source_mask : Nat) (id instance_ : Option String) (timestamp : Int) :
    Option StatsState :=
  match stats_register_dynamic_counter st stats_level source_mask id instance_ .processed with
  | none => none
  | some (handle, counter, _, st1) =>
      let st2 := stats_counter_inc st1 counter
      if timestamp ≥ 0 then
        match stats_register_associated_counter st2 handle .stamp with
        | none => none
        | some (stamp, st3) =>
            let st4 := stats_counter_set st3 stamp timestamp.toNat
            match stats_unregister_dynamic_counter st4 handle .stamp stamp with
            | none => none
            | some (_, st5) =>
                match stats_unregister_dynamic_counter st5 handle .processed counter with
                | none => none
                | some (_, st6) => some st6
      else
        match stats_unregister_dynamic_counter st2 handle .processed counter with
        | none => none
        | some (_, st6) => some st6

/-- `stats_counter_is_too_old` (stats.c:319-353), the eviction predicate of the
pruning sweep: a record goes iff it is dynamic, unreferenced, has a live STAMP
slot and `stamp <= now - lifetime` (the bookkeeping of `oldest_counter` and
`dropped_counters` is done by `pruneAux` below, where the C does it inside this
callback through the `args` array). -/
def stats_counter_is_too_old (now lifetime : Int) (sc : StatsCounter) : Bool :=
  if !sc.dynamic then false
  else if sc.ref_cnt > 0 then false
  else if sc.live_mask &&& (1 <<< SCType.stamp.toNat) == 0 then false
  else decide ((sc.counters.stamp : Int) ≤ now - lifetime)

/-- The `g_hash_table_foreach_remove` traversal of `stats_prune_old_counters`:
drop every record for which `stats_counter_is_too_old` holds, tracking the
oldest evicted timestamp (with the C's `0` = "unset" convention) and the count
of evicted records. -/
def pruneAux (now lifetime : Int) :
    List (Nat × StatsCounter) → Int → Nat → List (Nat × StatsCounter) × Int × Nat
  | [], oldest, dropped => ([], oldest, dropped)
  | p :: rest, oldest, dropped =>
      if stats_counter_is_too_old now lifetime p.2 then
        let tstamp : Int := p.2.counters.stamp
        pruneAux now lifetime rest
          (if oldest == 0 || oldest > tstamp then tstamp else oldest) (dropped + 1)
      else
        let r := pruneAux now lifetime rest oldest dropped
        (p :: r.1, r.2)

/-- `stats_prune_old_counters` (stats.c:355-371); `now` is the wall-clock
second supplied by the clock collaborator (`cached_g_current_time`).  Returns
the pruned state together with the `oldest-timestamp` and `dropped` values the
C code hands to `msg_notice`. -/
def stats_prune_old_counters (st : StatsState) (now lifetime : Int) :
    StatsState × Int × Nat :=
  let r := pruneAux now lifetime st.counter_hash 0 0
  ({ st with counter_hash := r.1 }, r.2)

/-- `stats_init` (stats.c:643-648): an empty registry (the global
`current_stats_level` starts at 0 until `stats_reinit` sets it). -/
def stats_init : StatsState :=
  { counter_hash := [], next_id := 0, current_stats_level := 0 }

/-! ### The CSV exporter -/

/-- Modelled from the spec: `SCS_SOURCE_MASK` from `stats.h` — the low bits of
`source` select the component name. -/
def SCS_SOURCE_MASK : Nat := 0xff

/-- Modelled from the spec: the `SCS_SOURCE` direction flag from `stats.h`. -/
def SCS_SOURCE : Nat := 0x100

/-- Modelled from the spec: the `SCS_DESTINATION` direction flag from
`stats.h`. -/
def SCS_DESTINATION : Nat := 0x200

/-- Modelled from the spec: `SCS_GROUP` from `stats.h`, the component index of
the "group" entry of `source_names` (stats.c:396-431). -/
def SCS_GROUP : Nat := 17

/-- The `source_names` table (stats.c:396-431). -/
def source_names : List String :=
  ["none", "file", "pipe", "tcp", "udp", "tcp6", "udp6", "unix-stream",
   "unix-dgram", "syslog", "network", "internal", "logstore", "program",
   "sql", "sun-streams", "usertty", "group", "center", "host", "global",
   "mongodb", "class", "rule_id", "tag", "severity", "facility", "sender",
   "smtp", "amqp", "stomp", "redis", "snmp"]

/-- The `tag_names` table (stats.c:387-394), indexed by sub-type. -/
def tag_names : SCType → List Char
  | .dropped => "dropped".data
  | .processed => "processed".data
  | .stored => "stored".data
  | .suppressed => "suppressed".data
  | .stamp => "stamp".data

/-- Concatenation of a per-character expansion (explicit recursion so that all
proofs and kernel evaluations unfold structurally). -/
def concatMapChars (f : Char → List Char) : List Char → List Char
  | [] => []
  | c :: cs => f c ++ concatMapChars f cs

/-- Lower-case hexadecimal digit (for the escape pass). -/
def hexDigitChar (n : Nat) : Char :=
  "0123456789abcdef".data.getD n '0'

/-- Modelled from the spec: `utf8_escape_string` (from `misc.c`, not part of
this source snapshot) — the spec describes it as "an additional generic
text-escaping pass (e.g., for control characters)": a control character is
rewritten to a backslash hex escape, every other character passes through
unchanged. -/
def utf8_escape_string (s : List Char) : List Char :=
  concatMapChars
    (fun c =>
      if c.toNat < 0x20 || c.toNat == 0x7f then
        ['\\', 'x', hexDigitChar (c.toNat / 16), hexDigitChar (c.toNat % 16)]
      else [c]) s

/-- `has_csv_special_character` (stats.c:485-497): a `';'` anywhere, a newline
anywhere, or a double quote as the first character. -/
def has_csv_special_character (var : List Char) : Bool :=
  var.contains ';' || var.contains '\n' || var.head? == some '"'

/-- The escaping loop of `stats_format_csv_escapevar` (stats.c:511-522): copy
the field, inserting a backslash before every double quote. -/
def csv_escape_quotes : List Char → List Char
  | [] => []
  | c :: cs => (if c = '"' then ['\\', '"'] else [c]) ++ csv_escape_quotes cs

/-- `stats_format_csv_escapevar` (stats.c:499-534): a non-empty field with a
CSV special character is wrapped in double quotes with interior quotes
backslash-escaped; either way the result goes through `utf8_escape_string`. -/
def stats_format_csv_escapevar (var : List Char) : List Char :=
  if var.length != 0 && has_csv_special_character var then
    utf8_escape_string ('"' :: csv_escape_quotes var ++ ['"'])
  else
    utf8_escape_string var

/-- Decimal rendering of a counter value (the `%u` conversion of
`g_string_append_printf`), with a structural fuel so that it unfolds in kernel
reductions; `natDigits` supplies enough fuel for any argument. -/
def natDigitsAux : Nat → Nat → List Char
  | 0, _ => []
  | fuel + 1, n =>
      if n < 10 then [Nat.digitChar n]
      else natDigitsAux fuel (n / 10) ++ [Nat.digitChar (n % 10)]

/-- Decimal digits of `n`, most significant first. -/
def natDigits (n : Nat) : List Char := natDigitsAux (n + 1) n

/-- The `source_name` computation shared by both exporters
(stats.c:561-576): `"source"`/`"destination"` for group records (no direction
flag at all is `g_assert_not_reached()`, modelled as `none`), otherwise an
optional `"src."`/`"dst."` prefix followed by the component's name.  A
component index beyond the `source_names` table would be an out-of-bounds read
in C; the model renders it as the empty name. -/
def sourceNameOf (sc : StatsCounter) : Option (List Char) :=
  if sc.source &&& SCS_SOURCE_MASK == SCS_GROUP then
    if sc.source &&& SCS_SOURCE != 0 then some "source".data
    else if sc.source &&& SCS_DESTINATION != 0 then some "destination".data
    else none
  else
    let base := (source_names.getD (sc.source &&& SCS_SOURCE_MASK) "").data
    if sc.source &&& SCS_SOURCE != 0 then some ("src.".data ++ base)
    else if sc.source &&& SCS_DESTINATION != 0 then some ("dst.".data ++ base)
    else some base

/-- One data row of `stats_format_csv` (stats.c:578): the
`"%s;%s;%s;%c;%s;%u"` part of the formatted line for one record and one live
sub-type (the terminating newline of the printf format is appended by
`rowsForTypes`), with the state character computed as in stats.c:555-560. -/
def stats_format_csv_row (sc : StatsCounter) (name : List Char) (t : SCType) : List Char :=
  let state : Char := if sc.dynamic then 'd' else if sc.ref_cnt == 0 then 'o' else 'a'
  name ++ ';' :: stats_format_csv_escapevar sc.id.data
       ++ ';' :: stats_format_csv_escapevar sc.instance_.data
       ++ ';' :: state
       :: ';' :: stats_format_csv_escapevar (tag_names t)
       ++ ';' :: natDigits (sc.counters.get t)

/-- The `for (type = 0; type < SC_TYPE_MAX; type++)` loop of
`stats_format_csv`: emit one newline-terminated row per live sub-type.
`none` is the `g_assert_not_reached()` for a group record without a direction
flag (only reachable when the record emits at least one row). -/
def rowsForTypes (sc : StatsCounter) : List SCType → Option (List Char)
  | [] => some []
  | t :: ts =>
      if sc.live_mask &&& (1 <<< t.toNat) != 0 then
        match sourceNameOf sc with
        | none => none
        | some name =>
            match rowsForTypes sc ts with
            | none => none
            | some rest => some (stats_format_csv_row sc name t ++ '\n' :: rest)
      else rowsForTypes sc ts

/-- The sub-types in C loop order. -/
def scTypeList : List SCType := [.dropped, .processed, .stored, .suppressed, .stamp]

/-- `stats_format_csv` (stats.c:536-584) for one record. -/
def stats_format_csv (sc : StatsCounter) : Option (List Char) :=
  rowsForTypes sc scTypeList

/-- Concatenation of a list of character lists. -/
def concatRows : List (List Char) → List Char
  | [] => []
  | r :: rs => r ++ concatRows rs

/-- The data rows (without newlines) one record contributes to the CSV
document: nothing for a record with no resolvable source name (it can emit no
row without tripping the assertion), otherwise one row per live sub-type in
loop order. -/
def recordRows (sc : StatsCounter) : List (List Char) :=
  match sourceNameOf sc with
  | none => []
  | some name =>
      (scTypeList.filter (fun t => sc.live_mask &&& (1 <<< t.toNat) != 0)).map
        (stats_format_csv_row sc name)

/-- All data rows of the registry, in traversal order. -/
def hashRows : List (Nat × StatsCounter) → List (List Char)
  | [] => []
  | p :: rest => recordRows p.2 ++ hashRows rest

/-- The `g_hash_table_foreach(counter_hash, stats_format_csv, csv)` traversal:
append every record's rows. -/
def csvEntriesAux : List (Nat × StatsCounter) → Option (List Char)
  | [] => some []
  | p :: rest =>
      match stats_format_csv p.2 with
      | none => none
      | some a =>
          match csvEntriesAux rest with
          | none => none
          | some b => some (a ++ b)

/-- The CSV header line, without its terminating newline. -/
def csv_header_row : List Char :=
  "SourceName;SourceId;SourceInstance;State;Type;Number".data

/-- `stats_generate_csv` (stats.c:587-597): the header line followed by every
record's data rows. -/
def stats_generate_csv (st : StatsState) : Option (List Char) :=
  match csvEntriesAux st.counter_hash with
  | none => none
  | some body => some (csv_header_row ++ '\n' :: body)

/-! ### A reader's view of the CSV document

To state the claims about row structure, the document is parsed back: split
into lines, and each line into fields, where a field that starts with a double
quote extends to the matching unescaped closing quote (a backslash escaping the
character after it) and `';'` separates fields outside quotes. -/

/-- Split a character list at newlines. -/
def linesAux : List Char → List Char → List (List Char)
  | [], acc => [acc.reverse]
  | c :: cs, acc =>
      if c = '\n' then acc.reverse :: linesAux cs [] else linesAux cs (c :: acc)

/-- The lines of a document (a trailing newline yields a final empty line). -/
def csvLines (s : List Char) : List (List Char) := csvLines.go s
where go (s : List Char) : List (List Char) := linesAux s []

/-- Field splitter on unescaped `';'`: `acc` is the reversed current field,
the state says where the scanner stands: 0 = outside quotes, 1 = inside a
quoted region (entered only by a quote at the start of a field), 2 = inside a
quoted region right after a backslash (the next character is escaped). -/
def splitCSVAux : List Char → List Char → Nat → List (List Char)
  | [], acc, _ => [acc.reverse]
  | c :: rest, acc, 2 => splitCSVAux rest (c :: acc) 1
  | c :: rest, acc, 1 =>
      if c = '\\' then splitCSVAux rest (c :: acc) 2
      else if c = '"' then splitCSVAux rest (c :: acc) 0
      else splitCSVAux rest (c :: acc) 1
  | c :: rest, acc, _ =>
      if c = ';' then acc.reverse :: splitCSVAux rest [] 0
      else if acc.isEmpty && c = '"' then splitCSVAux rest [c] 1
      else splitCSVAux rest (c :: acc) 0

/-- The `';'`-separated fields of one data row. -/
def splitCSVRow (row : List Char) : List (List Char) := splitCSVAux row [] 0

/-- The data rows of a generated document: everything between the header line
and the final empty fragment produced by the trailing newline. -/
def dataRows (csv : List Char) : List (List Char) := ((csvLines csv).drop 1).dropLast

/-! ### Caller protocols used by the lifecycle claims -/

/-- One step of a registration/unregistration sequence for a fixed key and
sub-type. -/
inductive RegOp
  | reg
  | unreg
  deriving DecidableEq

/-- Run a sequence of `stats_register_counter` / `stats_unregister_counter`
calls for one key and sub-type, the way a well-behaved caller issues them: an
unregistration passes the handle obtained from registration — which is the
address of the record's slot for the sub-type (`C6`), so it is synthesised from
the record's identifier here.  Unregistering while no record exists models a
caller passing a non-null stale handle: `stats_unregister_counter` asserts
(`none`). -/
def runOps (level : Int) (src : Nat) (id inst : Option String) (t : SCType) :
    StatsState → List RegOp → Option StatsState
  | st, [] => some st
  | st, .reg :: rest =>
      runOps level src id inst t (stats_register_counter st level src id inst t).2 rest
  | st, .unreg :: rest =>
      match lookupKey st.counter_hash (src % 65536) (id.getD "") (inst.getD "") with
      | none => none
      | some (rid, _) =>
          match stats_unregister_counter st src id inst t (some (rid, t)) with
          | none => none
          | some (_, st') => runOps level src id inst t st' rest

/-- Number of registrations in a sequence. -/
def countReg : List RegOp → Nat
  | [] => 0
  | .reg :: rest => countReg rest + 1
  | .unreg :: rest => countReg rest

/-- Number of unregistrations in a sequence. -/
def countUnreg : List RegOp → Nat
  | [] => 0
  | .reg :: rest => countUnreg rest
  | .unreg :: rest => countUnreg rest + 1

/-- Invariant of a registration/unregistration run for one key and sub-type,
after `r` registrations and `u` unregistrations: while no record exists nothing
has happened; once it exists, its live bit for the sub-type is set and its
16-bit `ref_cnt` equals `r − u` modulo 2^16. -/
def runInv (src : Nat) (id inst : Option String) (t : SCType) (r u : Nat)
    (st : StatsState) : Prop :=
  match lookupKey st.counter_hash (src % 65536) (id.getD "") (inst.getD "") with
  | none => r = 0 ∧ u = 0
  | some (_, sc) =>
      1 ≤ r ∧ sc.ref_cnt < 65536 ∧ sc.live_mask &&& (1 <<< t.toNat) ≠ 0 ∧
      (sc.ref_cnt : Int) = ((r : Int) - (u : Int)) % 65536

/-! ### Auxiliary predicates and concrete states used by the theorems -/

/-- A record mutation that leaves the key fields alone (every mutation the C
module performs on stored records is of this shape). -/
def KeyPreserving (f : StatsCounter → StatsCounter) : Prop :=
  ∀ r : StatsCounter, (f r).source = r.source ∧ (f r).id = r.id ∧ (f r).instance_ = r.instance_

/-- Well-formed heap: allocation identifiers are fresh and pairwise distinct
(true of every reachable state, since identifiers stand for the addresses of
live allocations). -/
def wfState (st : StatsState) : Prop :=
  freshState st ∧ (st.counter_hash.map Prod.fst).Nodup

/-- Characters inside a quoted CSV field as the escaper emits them: chunks
that the field splitter consumes without leaving the quoted region — an
ordinary character (neither a quote nor a backslash), or a backslash followed
by any character. -/
inductive QuotedBody : List Char → Prop
  | nil : QuotedBody []
  | plain {c : Char} {body : List Char} :
      c ≠ '"' → c ≠ '\\' → QuotedBody body → QuotedBody (c :: body)
  | esc {d : Char} {body : List Char} :
      QuotedBody body → QuotedBody ('\\' :: d :: body)

/-- An unquoted field as the splitter sees it: no separator and no leading
quote. -/
def plainField (f : List Char) : Prop :=
  ';' ∉ f ∧ f.head? ≠ some '"'

/-- A field the splitter recognises as one unit: plain, or a fully quoted
block. -/
def GoodField (f : List Char) : Prop :=
  plainField f ∨ ∃ body, f = '"' :: body ++ ['"'] ∧ QuotedBody body

/-- The record `stats_add_counter` allocates for a missing key (`g_new0` plus
the explicit field initialisations). -/
def newRecord (source : Nat) (id inst : String) : StatsCounter :=
  { counters := CounterSlots.zero, ref_cnt := 1, source := source, id := id,
    instance_ := inst, live_mask := 0, dynamic := false }

/-- An empty registry configured at stats level 3. -/
def stEmpty3 : StatsState :=
  { counter_hash := [], next_id := 0, current_stats_level := 3 }

/-- A live static record under key `(1, "k", "i")` with a live PROCESSED
slot. -/
def scK : StatsCounter :=
  { counters := CounterSlots.zero, ref_cnt := 1, source := 1, id := "k",
    instance_ := "i", live_mask := 2, dynamic := false }

/-- A one-record registry holding `scK`. -/
def stK : StatsState :=
  { counter_hash := [(0, scK)], next_id := 1, current_stats_level := 3 }

/-- The orphaned variant of `scK`. -/
def scOrph : StatsCounter := { scK with ref_cnt := 0 }

/-- A one-record registry holding `scOrph`. -/
def stOrph : StatsState :=
  { counter_hash := [(0, scOrph)], next_id := 1, current_stats_level := 3 }

/-- An orphaned dynamic record with a live STAMP slot holding timestamp 5
(eligible for pruning once `now - lifetime` reaches 5). -/
def scDyn : StatsCounter :=
  { counters := { CounterSlots.zero with processed := 1, stamp := 5 },
    ref_cnt := 0, source := 1, id := "k", instance_ := "i",
    live_mask := 18, dynamic := true }

/-- A registry holding the prunable `scDyn` next to the static `scK` (under a
different key). -/
def stPrune : StatsState :=
  { counter_hash := [(0, scDyn), (1, { scK with id := "other" })], next_id := 2,
    current_stats_level := 3 }

/-- The spec's example record: `src.file`, id `s1`, three processed
messages. -/
def scFile : StatsCounter :=
  { counters := { CounterSlots.zero with processed := 3 }, ref_cnt := 1,
    source := 0x100 + 1, id := "s1", instance_ := "", live_mask := 2,
    dynamic := false }

/-- A one-record registry holding `scFile`. -/
def stFile : StatsState :=
  { counter_hash := [(5, scFile)], next_id := 6, current_stats_level := 3 }

/-- A record whose id ends in a backslash right before the quote the escaper
appends — the input on which the claimed 6-field row structure breaks. -/
def scBack : StatsCounter :=
  { counters := CounterSlots.zero, ref_cnt := 1, source := 0x100 + 1,
    id := ";\\", instance_ := "", live_mask := 2, dynamic := false }

/-- A one-record registry holding `scBack`. -/
def stBack : StatsState :=
  { counter_hash := [(0, scBack)], next_id := 1, current_stats_level := 3 }

/-! ## Registry infrastructure lemmas -/

theorem keyMatches_iff {source : Nat} {id inst : String} {sc : StatsCounter} :
    keyMatches source id inst sc = true ↔
      sc.source = source ∧ sc.id = id ∧ sc.instance_ = inst := by
  simp [keyMatches, and_assoc]

theorem lookupKey_mem {h : List (Nat × StatsCounter)} {source : Nat} {id inst : String}
    {p : Nat × StatsCounter} (hl : lookupKey h source id inst = some p) : p ∈ h := by
  induction h with
  | nil => simp [lookupKey] at hl
  | cons q rest ih =>
      rw [lookupKey] at hl
      split at hl
      · cases hl; exact List.mem_cons_self _ _
      · exact List.mem_cons_of_mem _ (ih hl)

theorem lookupKey_matches {h : List (Nat × StatsCounter)} {source : Nat} {id inst : String}
    {p : Nat × StatsCounter} (hl : lookupKey h source id inst = some p) :
    keyMatches source id inst p.2 = true := by
  induction h with
  | nil => simp [lookupKey] at hl
  | cons q rest ih =>
      rw [lookupKey] at hl
      split at hl
      · cases hl; assumption
      · exact ih hl

theorem modifyRecord_map_fst (h : List (Nat × StatsCounter)) (rid : Nat)
    (f : StatsCounter → StatsCounter) :
    (modifyRecord h rid f).map Prod.fst = h.map Prod.fst := by
  induction h with
  | nil => rfl
  | cons q rest ih =>
      rw [modifyRecord]
      by_cases hq : q.1 = rid <;> simp [hq, ih]

theorem length_modifyRecord (h : List (Nat × StatsCounter)) (rid : Nat)
    (f : StatsCounter → StatsCounter) :
    (modifyRecord h rid f).length = h.length := by
  induction h with
  | nil => rfl
  | cons q rest ih => rw [modifyRecord]; simp [ih]

theorem keyMatches_of_keyPreserving {source : Nat} {id inst : String}
    {f : StatsCounter → StatsCounter} (hf : KeyPreserving f) (r : StatsCounter) :
    keyMatches source id inst (f r) = keyMatches source id inst r := by
  obtain ⟨h1, h2, h3⟩ := hf r
  simp [keyMatches, h1, h2, h3]

theorem lookupKey_modifyRecord {h : List (Nat × StatsCounter)} {source : Nat}
    {id inst : String} {rid : Nat} {sc : StatsCounter} {f : StatsCounter → StatsCounter}
    (hf : KeyPreserving f) (hl : lookupKey h source id inst = some (rid, sc)) :
    lookupKey (modifyRecord h rid f) source id inst = some (rid, f sc) := by
  induction h with
  | nil => simp [lookupKey] at hl
  | cons q rest ih =>
      rw [lookupKey] at hl
      by_cases hm : keyMatches source id inst q.2 = true
      · rw [if_pos hm] at hl
        have hq : q = (rid, sc) := by injection hl
        subst hq
        rw [modifyRecord, if_pos rfl, lookupKey]
        simp [keyMatches_of_keyPreserving hf, hm]
      · rw [if_neg hm] at hl
        rw [modifyRecord, lookupKey]
        by_cases hq : q.1 = rid
        · rw [if_pos hq]
          simp only [keyMatches_of_keyPreserving hf]
          rw [if_neg hm]
          exact ih hl
        · rw [if_neg hq, if_neg hm]
          exact ih hl

theorem lookupKey_modifyRecord_none {h : List (Nat × StatsCounter)} {source : Nat}
    {id inst : String} {rid : Nat} {f : StatsCounter → StatsCounter}
    (hf : KeyPreserving f) (hl : lookupKey h source id inst = none) :
    lookupKey (modifyRecord h rid f) source id inst = none := by
  induction h with
  | nil => rfl
  | cons q rest ih =>
      rw [lookupKey] at hl
      by_cases hm : keyMatches source id inst q.2 = true
      · rw [if_pos hm] at hl; exact absurd hl (by simp)
      · rw [if_neg hm] at hl
        rw [modifyRecord, lookupKey]
        by_cases hq : q.1 = rid
        · rw [if_pos hq]
          simp only [keyMatches_of_keyPreserving hf]
          rw [if_neg hm]
          exact ih hl
        · rw [if_neg hq, if_neg hm]
          exact ih hl

theorem lookupKey_append {h l : List (Nat × StatsCounter)} {source : Nat} {id inst : String}
    (hl : lookupKey h source id inst = none) :
    lookupKey (h ++ l) source id inst = lookupKey l source id inst := by
  induction h with
  | nil => rfl
  | cons q rest ih =>
      rw [lookupKey] at hl
      by_cases hm : keyMatches source id inst q.2 = true
      · rw [if_pos hm] at hl; exact absurd hl (by simp)
      · rw [if_neg hm] at hl
        rw [List.cons_append, lookupKey, if_neg hm]
        exact ih hl

/-! ## Bitmask lemmas -/

theorem or_shift_and_self (x k : Nat) : (x ||| (1 <<< k)) &&& (1 <<< k) ≠ 0 := by
  have h1 : (1 : Nat) <<< k = 2 ^ k := by rw [Nat.shiftLeft_eq, one_mul]
  rw [h1, Nat.and_two_pow]
  have h2 : (x ||| 2 ^ k).testBit k = true := by
    rw [Nat.testBit_lor, Nat.testBit_two_pow_self, Bool.or_true]
  rw [h2]
  simp

theorem or_preserves_live_bit {x k : Nat} (y : Nat) (h : x &&& (1 <<< k) ≠ 0) :
    (x ||| y) &&& (1 <<< k) ≠ 0 := by
  have h1 : (1 : Nat) <<< k = 2 ^ k := by rw [Nat.shiftLeft_eq, one_mul]
  rw [h1, Nat.and_two_pow] at h
  rw [h1, Nat.and_two_pow, Nat.testBit_lor]
  rcases hb : x.testBit k
  · rw [hb] at h; simp at h
  · simp

/-! ## Behaviour of stats_add_counter and stats_register_counter -/

theorem add_counter_found {st : StatsState} {level : Int} {src : Nat} {id inst : Option String}
    {rid : Nat} {sc : StatsCounter}
    (hlv : stats_check_level st level = true)
    (hk : lookupKey st.counter_hash (src % 65536) (id.getD "") (inst.getD "") = some (rid, sc)) :
    stats_add_counter st level src id inst =
      (some (rid, { sc with ref_cnt := (sc.ref_cnt + 1) % 65536 }, sc.ref_cnt == 0),
       { st with counter_hash := modifyRecord st.counter_hash rid (fun r => { r with ref_cnt := (r.ref_cnt + 1) % 65536 }) }) := by
  unfold stats_add_counter
  rw [if_neg (by simp [hlv])]
  simp only [hk]

theorem add_counter_new {st : StatsState} {level : Int} {src : Nat} {id inst : Option String}
    (hlv : stats_check_level st level = true)
    (hk : lookupKey st.counter_hash (src % 65536) (id.getD "") (inst.getD "") = none) :
    stats_add_counter st level src id inst =
      (some (st.next_id, newRecord (src % 65536) (id.getD "") (inst.getD ""), true),
       { st with
         counter_hash := st.counter_hash ++ [(st.next_id, newRecord (src % 65536) (id.getD "") (inst.getD ""))],
         next_id := st.next_id + 1 }) := by
  unfold stats_add_counter
  rw [if_neg (by simp [hlv])]
  simp only [hk]
  rfl

theorem register_counter_found {st : StatsState} {level : Int} {src : Nat}
    {id inst : Option String} {rid : Nat} {sc : StatsCounter} (t : SCType)
    (hlv : stats_check_level st level = true)
    (hk : lookupKey st.counter_hash (src % 65536) (id.getD "") (inst.getD "") = some (rid, sc)) :
    stats_register_counter st level src id inst t =
      (some (rid, t),
       { st with counter_hash := modifyRecord (modifyRecord st.counter_hash rid (fun r => { r with ref_cnt := (r.ref_cnt + 1) % 65536 })) rid (fun r => { r with live_mask := r.live_mask ||| (1 <<< t.toNat) }) }) := by
  unfold stats_register_counter
  rw [add_counter_found hlv hk]

theorem register_counter_new {st : StatsState} {level : Int} {src : Nat}
    {id inst : Option String} (t : SCType)
    (hlv : stats_check_level st level = true)
    (hk : lookupKey st.counter_hash (src % 65536) (id.getD "") (inst.getD "") = none) :
    stats_register_counter st level src id inst t =
      (some (st.next_id, t),
       { st with
         counter_hash := modifyRecord (st.counter_hash ++ [(st.next_id, newRecord (src % 65536) (id.getD "") (inst.getD ""))]) st.next_id (fun r => { r with live_mask := r.live_mask ||| (1 <<< t.toNat) }),
         next_id := st.next_id + 1 }) := by
  unfold stats_register_counter
  rw [add_counter_new hlv hk]

theorem keyMatches_newRecord (src : Nat) (id inst : String) :
    keyMatches src id inst (newRecord src id inst) = true := by
  simp [keyMatches, newRecord]

/-! ## Pruning: C1 -/

theorem pruneAux_fst (now lifetime : Int) (l : List (Nat × StatsCounter)) (o : Int) (d : Nat) :
    (pruneAux now lifetime l o d).1 =
      l.filter (fun p => !stats_counter_is_too_old now lifetime p.2) := by
  induction l generalizing o d with
  | nil => rfl
  | cons p rest ih =>
      rw [pruneAux]
      by_cases hp : stats_counter_is_too_old now lifetime p.2 = true
      · rw [if_pos hp]
        rw [List.filter_cons_of_neg (by simp [hp])]
        exact ih _ _
      · have hpf : stats_counter_is_too_old now lifetime p.2 = false := by
          simpa using hp
        rw [if_neg hp]
        show p :: (pruneAux now lifetime rest o d).1 = _
        rw [List.filter_cons_of_pos (by simp [hpf])]
        rw [ih]

theorem tooOld_iff (now lifetime : Int) (sc : StatsCounter) :
    stats_counter_is_too_old now lifetime sc = true ↔
      sc.dynamic = true ∧ sc.ref_cnt = 0 ∧
      sc.live_mask &&& (1 <<< SCType.stamp.toNat) ≠ 0 ∧
      (sc.counters.stamp : Int) ≤ now - lifetime := by
  unfold stats_counter_is_too_old
  split_ifs with h1 h2 h3
  · simp only [Bool.not_eq_true'] at h1
    simp [h1]
  · have hdyn : sc.dynamic = true := by
      rcases hb : sc.dynamic
      · rw [hb] at h1; exact absurd rfl h1
      · rfl
    constructor
    · intro hcon; exact absurd hcon (by simp)
    · rintro ⟨-, hr0, -, -⟩; omega
  · simp only [beq_iff_eq] at h3
    constructor
    · intro hcon; exact absurd hcon (by simp)
    · rintro ⟨-, -, hm, -⟩; exact hm h3
  · have hdyn : sc.dynamic = true := by
      rcases hb : sc.dynamic
      · rw [hb] at h1; exact absurd rfl h1
      · rfl
    have hr0 : sc.ref_cnt = 0 := by omega
    have hm : sc.live_mask &&& (1 <<< SCType.stamp.toNat) ≠ 0 := by
      simpa using h3
    simp only [decide_eq_true_iff]
    constructor
    · intro hle; exact ⟨hdyn, hr0, hm, hle⟩
    · rintro ⟨-, -, -, hle⟩; exact hle

/-- C1: for every registry state and every lifetime, the pruning sweep removes
a record iff all four conditions hold — dynamic flag set, `ref_count = 0`, live
STAMP bit, and `stamp ≤ now − lifetime`; in particular a non-dynamic record is
never removed, and a record with `ref_count > 0` is never removed. -/
theorem C1_prune_removes_iff (st : StatsState) (now lifetime : Int) (rid : Nat)
    (sc : StatsCounter) (hmem : (rid, sc) ∈ st.counter_hash) :
    ((rid, sc) ∉ (stats_prune_old_counters st now lifetime).1.counter_hash ↔
      (sc.dynamic = true ∧ sc.ref_cnt = 0 ∧
        sc.live_mask &&& (1 <<< SCType.stamp.toNat) ≠ 0 ∧
        (sc.counters.stamp : Int) ≤ now - lifetime)) ∧
    (sc.dynamic = false →
      (rid, sc) ∈ (stats_prune_old_counters st now lifetime).1.counter_hash) ∧
    (sc.ref_cnt > 0 →
      (rid, sc) ∈ (stats_prune_old_counters st now lifetime).1.counter_hash) := by
  have hh : (stats_prune_old_counters st now lifetime).1.counter_hash =
      st.counter_hash.filter (fun p => !stats_counter_is_too_old now lifetime p.2) := by
    unfold stats_prune_old_counters
    simp only
    exact pruneAux_fst now lifetime st.counter_hash 0 0
  have hmemf : (rid, sc) ∈ (stats_prune_old_counters st now lifetime).1.counter_hash ↔
      stats_counter_is_too_old now lifetime sc = false := by
    rw [hh, List.mem_filter]
    constructor
    · rintro ⟨-, hb⟩
      simpa using hb
    · intro hb
      exact ⟨hmem, by simpa using hb⟩
  constructor
  · rw [hmemf, ← tooOld_iff now lifetime sc]
    simp
  · constructor
    · intro hd
      rw [hmemf]
      rcases hb : stats_counter_is_too_old now lifetime sc
      · rfl
      · exact absurd ((tooOld_iff now lifetime sc).mp hb).1 (by simp [hd])
    · intro hr
      rw [hmemf]
      rcases hb : stats_counter_is_too_old now lifetime sc
      · rfl
      · exact absurd ((tooOld_iff now lifetime sc).mp hb).2.1 (by omega)

/-- Witness for C1 at a concrete registry: the stale orphaned dynamic record of
`stPrune` with `now = 10`, `lifetime = 4`. -/
theorem C1_prune_removes_iff_witness :
    (0, scDyn) ∈ stPrune.counter_hash ∧
    (((0, scDyn) ∉ (stats_prune_old_counters stPrune 10 4).1.counter_hash ↔
      (scDyn.dynamic = true ∧ scDyn.ref_cnt = 0 ∧
        scDyn.live_mask &&& (1 <<< SCType.stamp.toNat) ≠ 0 ∧
        (scDyn.counters.stamp : Int) ≤ 10 - 4)) ∧
    (scDyn.dynamic = false →
      (0, scDyn) ∈ (stats_prune_old_counters stPrune 10 4).1.counter_hash) ∧
    (scDyn.ref_cnt > 0 →
      (0, scDyn) ∈ (stats_prune_old_counters stPrune 10 4).1.counter_hash)) :=
  ⟨by decide, C1_prune_removes_iff stPrune 10 4 0 scDyn (by decide)⟩

/-! ## Admission rejection: C3 -/

/-- C3: a registration (static or dynamic) whose required level is not met
returns an absent handle and leaves the state — hence every record, every
`ref_count`, every `live_mask` and the map size — exactly unchanged. -/
theorem C3_level_rejected_no_side_effect (st : StatsState) (level : Int) (source : Nat)
    (id inst : Option String) (t : SCType) (h : stats_check_level st level = false) :
    stats_register_counter st level source id inst t = (none, st) ∧
    stats_register_dynamic_counter st level source id inst t = some (none, none, false, st) := by
  have ha : stats_add_counter st level source id inst = (none, st) := by
    unfold stats_add_counter
    rw [if_pos (by simp [h])]
  constructor
  · unfold stats_register_counter
    rw [ha]
  · unfold stats_register_dynamic_counter
    rw [ha]

/-- Witness for C3: the spec's admission example — required level 5 against a
configured level of 3. -/
theorem C3_level_rejected_no_side_effect_witness :
    stats_check_level stEmpty3 5 = false ∧
    stats_register_counter stEmpty3 5 1 (some "k") none SCType.processed = (none, stEmpty3) ∧
    stats_register_dynamic_counter stEmpty3 5 1 (some "k") none SCType.processed =
      some (none, none, false, stEmpty3) :=
  ⟨by decide,
   C3_level_rejected_no_side_effect stEmpty3 5 1 (some "k") none SCType.processed (by decide)⟩

/-! ## Null-handle unregistration: C9 -/

/-- C9: unregistering through a null handle (static variant) or a null family
reference (dynamic variant) is a no-op returning the state unchanged, and a
successful static unregistration clears the caller's handle, so repeating the
call with the returned handle is again a no-op (double-unregister safety). -/
theorem C9_null_unregister_noop :
    (∀ (st : StatsState) (source : Nat) (id inst : Option String) (t : SCType),
        stats_unregister_counter st source id inst t none = some (none, st)) ∧
    (∀ (st : StatsState) (t : SCType) (c : Option CounterRef),
        stats_unregister_dynamic_counter st none t c = some (c, st)) ∧
    (∀ (st : StatsState) (source : Nat) (id inst : Option String) (t : SCType)
        (c c' : Option CounterRef) (st' : StatsState),
        stats_unregister_counter st source id inst t c = some (c', st') →
        c' = none ∧ stats_unregister_counter st' source id inst t c' = some (none, st')) := by
  refine ⟨fun st source id inst t => rfl, fun st t c => rfl, ?_⟩
  intro st source id inst t c c' st' h
  rcases c with _ | cc
  · rw [show stats_unregister_counter st source id inst t none = some (none, st) from rfl] at h
    rw [Option.some.injEq, Prod.mk.injEq] at h
    obtain ⟨h1, h2⟩ := h
    rw [← h1]
    exact ⟨rfl, rfl⟩
  · simp only [stats_unregister_counter] at h
    rcases hk : lookupKey st.counter_hash (source % 65536) (id.getD "") (inst.getD "") with
      _ | ⟨rid, sc⟩
    · simp only [hk] at h
      exact Option.noConfusion h
    · simp only [hk] at h
      split_ifs at h
      rw [Option.some.injEq, Prod.mk.injEq] at h
      obtain ⟨h1, h2⟩ := h
      rw [← h1]
      exact ⟨rfl, rfl⟩

/-- Witness for C9: a concrete successful unregistration on `stK` followed by
the no-op repeat with the cleared handle. -/
theorem C9_null_unregister_noop_witness :
    stats_unregister_counter stK 1 (some "k") (some "i") SCType.processed
        (some (0, SCType.processed)) =
      some (none, { stK with counter_hash := [(0, { scK with ref_cnt := 0 })] }) ∧
    ((none : Option CounterRef) = none ∧
      stats_unregister_counter { stK with counter_hash := [(0, { scK with ref_cnt := 0 })] }
          1 (some "k") (some "i") SCType.processed none =
        some (none, { stK with counter_hash := [(0, { scK with ref_cnt := 0 })] })) :=
  ⟨by decide,
   C9_null_unregister_noop.2.2 stK 1 (some "k") (some "i") SCType.processed
     (some (0, SCType.processed)) none
     { stK with counter_hash := [(0, { scK with ref_cnt := 0 })] } (by decide)⟩

/-! ## Mixing static and dynamic registration: C4 -/

/-- C4 (amended): dynamic registration of a key whose existing record is
non-dynamic and currently referenced (`ref_count > 0`) is a fatal assertion
failure, and registering an associated sub-type on a (non-null) non-dynamic
record is a fatal assertion failure; the code does not detect the reverse
order — see the counterexample. -/
theorem C4_mixed_registration_asserts :
    (∀ (st : StatsState) (level : Int) (src : Nat) (id inst : Option String) (t : SCType)
        (rid : Nat) (sc : StatsCounter),
        stats_check_level st level = true →
        lookupKey st.counter_hash (src % 65536) (id.getD "") (inst.getD "") = some (rid, sc) →
        sc.dynamic = false → sc.ref_cnt ≠ 0 →
        stats_register_dynamic_counter st level src id inst t = none) ∧
    (∀ (st : StatsState) (rid : Nat) (t : SCType) (r : StatsCounter),
        lookupRid st.counter_hash rid = some (rid, r) → r.dynamic = false →
        stats_register_associated_counter st (some rid) t = none) := by
  constructor
  · intro st level src id inst t rid sc hlv hk hdyn href
    unfold stats_register_dynamic_counter
    rw [add_counter_found hlv hk]
    have hnew : (sc.ref_cnt == 0) = false := by simp [href]
    simp [hnew, hdyn]
  · intro st rid t r hk hdyn
    unfold stats_register_associated_counter
    simp [hk, hdyn]

/-- Witness for C4: on the live static record of `stK`, a dynamic registration
and an associated registration both abort. -/
theorem C4_mixed_registration_asserts_witness :
    stats_register_dynamic_counter stK 3 1 (some "k") (some "i") SCType.processed = none ∧
    stats_register_associated_counter stK (some 0) SCType.stamp = none :=
  ⟨C4_mixed_registration_asserts.1 stK 3 1 (some "k") (some "i") SCType.processed 0 scK
      (by decide) (by decide) (by decide) (by decide),
   C4_mixed_registration_asserts.2 stK 0 SCType.stamp scK (by decide) (by decide)⟩

/-- C4 counterexample: the claim "in whichever order the two registrations
occur" fails on the code.  A static registration after a dynamic registration
of the same key raises no assertion and returns a handle, and a dynamic
registration over an orphaned (`ref_count = 0`) static record also completes
without a fault. -/
theorem C4_mixed_registration_counterexample :
    stats_register_dynamic_counter stEmpty3 3 1 (some "k") (some "i") SCType.processed =
      some (some 0, some (0, SCType.processed), true,
        { counter_hash := [(0, { scK with dynamic := true })], next_id := 1,
          current_stats_level := 3 }) ∧
    (stats_register_counter
        { counter_hash := [(0, { scK with dynamic := true })], next_id := 1,
          current_stats_level := 3 } 3 1 (some "k") (some "i") SCType.processed).1 =
      some (0, SCType.processed) ∧
    (stats_register_dynamic_counter stOrph 3 1 (some "k") (some "i") SCType.processed).isSome =
      true :=
  ⟨by decide, by decide, by decide⟩

/-! ## Orphan re-registration: C10 -/

/-- C10: a registration that finds an orphaned record (`ref_count = 0`) reports
`created = true` although nothing is allocated (same identifier, same map
length, same `next_id`); the record keeps its accumulated counter values,
live-mask bits and key, and its `ref_count` becomes 1 (the dynamic variant
additionally sets the dynamic flag and the sub-type's live bit). -/
theorem C10_orphan_reregistration (st : StatsState) (level : Int) (src : Nat)
    (id inst : Option String) (t : SCType) (rid : Nat) (sc : StatsCounter)
    (hlv : stats_check_level st level = true)
    (hk : lookupKey st.counter_hash (src % 65536) (id.getD "") (inst.getD "") = some (rid, sc))
    (hr : sc.ref_cnt = 0) :
    (∃ st1, stats_add_counter st level src id inst =
        (some (rid, { sc with ref_cnt := 1 }, true), st1) ∧
      lookupKey st1.counter_hash (src % 65536) (id.getD "") (inst.getD "") =
        some (rid, { sc with ref_cnt := 1 }) ∧
      st1.next_id = st.next_id ∧ st1.counter_hash.length = st.counter_hash.length) ∧
    (∃ st2, stats_register_dynamic_counter st level src id inst t =
        some (some rid, some (rid, t), true, st2) ∧
      lookupKey st2.counter_hash (src % 65536) (id.getD "") (inst.getD "") =
        some (rid, { sc with ref_cnt := 1, live_mask := sc.live_mask ||| (1 <<< t.toNat), dynamic := true }) ∧
      st2.next_id = st.next_id ∧ st2.counter_hash.length = st.counter_hash.length) := by
  have hKP1 : KeyPreserving (fun r : StatsCounter => { r with ref_cnt := (r.ref_cnt + 1) % 65536 }) :=
    fun r => ⟨rfl, rfl, rfl⟩
  have hKP2 : KeyPreserving (fun r : StatsCounter => { r with dynamic := true, live_mask := r.live_mask ||| (1 <<< t.toNat) }) :=
    fun r => ⟨rfl, rfl, rfl⟩
  have hsc1 : { sc with ref_cnt := (sc.ref_cnt + 1) % 65536 } = { sc with ref_cnt := 1 } := by
    rw [hr]
  have hadd := add_counter_found hlv hk
  rw [hsc1] at hadd
  have hnew : (sc.ref_cnt == 0) = true := by simp [hr]
  rw [hnew] at hadd
  constructor
  · refine ⟨_, hadd, ?_, rfl, length_modifyRecord _ _ _⟩
    have := lookupKey_modifyRecord hKP1 hk
    simpa [hsc1] using this
  · unfold stats_register_dynamic_counter
    rw [hadd]
    simp only [Bool.not_true, Bool.false_and, Bool.false_eq_true, if_false]
    refine ⟨_, rfl, ?_, rfl, ?_⟩
    · have h1 := lookupKey_modifyRecord hKP1 hk
      have h2 := lookupKey_modifyRecord hKP2 h1
      simp only at h2
      rw [hr] at h2
      convert h2 using 3
    · rw [length_modifyRecord, length_modifyRecord]

/-- Witness for C10 on the concrete orphaned record of `stOrph`. -/
theorem C10_orphan_reregistration_witness :
    (∃ st1, stats_add_counter stOrph 3 1 (some "k") (some "i") =
        (some (0, { scOrph with ref_cnt := 1 }, true), st1) ∧
      lookupKey st1.counter_hash (1 % 65536) ((some "k").getD "") ((some "i").getD "") =
        some (0, { scOrph with ref_cnt := 1 }) ∧
      st1.next_id = stOrph.next_id ∧ st1.counter_hash.length = stOrph.counter_hash.length) ∧
    (∃ st2, stats_register_dynamic_counter stOrph 3 1 (some "k") (some "i") SCType.stamp =
        some (some 0, some (0, SCType.stamp), true, st2) ∧
      lookupKey st2.counter_hash (1 % 65536) ((some "k").getD "") ((some "i").getD "") =
        some (0, { scOrph with ref_cnt := 1, live_mask := scOrph.live_mask ||| (1 <<< SCType.stamp.toNat), dynamic := true }) ∧
      st2.next_id = stOrph.next_id ∧ st2.counter_hash.length = stOrph.counter_hash.length) :=
  C10_orphan_reregistration stOrph 3 1 (some "k") (some "i") SCType.stamp 0 scOrph
    (by decide) (by decide) (by decide)

/-! ## Shared-counter handle identity: C6 -/

theorem add_counter_rejected {st : StatsState} {level : Int} (src : Nat)
    (id inst : Option String) (h : stats_check_level st level = false) :
    stats_add_counter st level src id inst = (none, st) := by
  unfold stats_add_counter
  rw [if_pos (by simp [h])]

theorem register_counter_fst_found {st : StatsState} {level : Int} {src : Nat}
    {id inst : Option String} {rid : Nat} {sc : StatsCounter} (t : SCType)
    (hlv : stats_check_level st level = true)
    (hk : lookupKey st.counter_hash (src % 65536) (id.getD "") (inst.getD "") = some (rid, sc)) :
    (stats_register_counter st level src id inst t).1 = some (rid, t) := by
  rw [register_counter_found t hlv hk]

theorem register_counter_fst_new {st : StatsState} {level : Int} {src : Nat}
    {id inst : Option String} (t : SCType)
    (hlv : stats_check_level st level = true)
    (hk : lookupKey st.counter_hash (src % 65536) (id.getD "") (inst.getD "") = none) :
    (stats_register_counter st level src id inst t).1 = some (st.next_id, t) := by
  rw [register_counter_new t hlv hk]

theorem register_counter_snd_lookup_found {st : StatsState} {level : Int} {src : Nat}
    {id inst : Option String} {rid : Nat} {sc : StatsCounter} (t : SCType)
    (hlv : stats_check_level st level = true)
    (hk : lookupKey st.counter_hash (src % 65536) (id.getD "") (inst.getD "") = some (rid, sc)) :
    lookupKey (stats_register_counter st level src id inst t).2.counter_hash
        (src % 65536) (id.getD "") (inst.getD "") =
      some (rid, { sc with ref_cnt := (sc.ref_cnt + 1) % 65536, live_mask := sc.live_mask ||| (1 <<< t.toNat) }) := by
  rw [register_counter_found t hlv hk]
  have hKP1 : KeyPreserving (fun r : StatsCounter => { r with ref_cnt := (r.ref_cnt + 1) % 65536 }) :=
    fun r => ⟨rfl, rfl, rfl⟩
  have hKP2 : KeyPreserving (fun r : StatsCounter => { r with live_mask := r.live_mask ||| (1 <<< t.toNat) }) :=
    fun r => ⟨rfl, rfl, rfl⟩
  exact lookupKey_modifyRecord hKP2 (lookupKey_modifyRecord hKP1 hk)

theorem register_counter_snd_lookup_new {st : StatsState} {level : Int} {src : Nat}
    {id inst : Option String} (t : SCType)
    (hlv : stats_check_level st level = true)
    (hk : lookupKey st.counter_hash (src % 65536) (id.getD "") (inst.getD "") = none) :
    lookupKey (stats_register_counter st level src id inst t).2.counter_hash
        (src % 65536) (id.getD "") (inst.getD "") =
      some (st.next_id,
        { newRecord (src % 65536) (id.getD "") (inst.getD "") with live_mask := 0 ||| (1 <<< t.toNat) }) := by
  rw [register_counter_new t hlv hk]
  have hKP2 : KeyPreserving (fun r : StatsCounter => { r with live_mask := r.live_mask ||| (1 <<< t.toNat) }) :=
    fun r => ⟨rfl, rfl, rfl⟩
  have hbase : lookupKey
      (st.counter_hash ++ [(st.next_id, newRecord (src % 65536) (id.getD "") (inst.getD ""))])
      (src % 65536) (id.getD "") (inst.getD "") =
      some (st.next_id, newRecord (src % 65536) (id.getD "") (inst.getD "")) := by
    rw [lookupKey_append hk]
    rw [lookupKey, if_pos (keyMatches_newRecord _ _ _)]
  exact lookupKey_modifyRecord hKP2 hbase

theorem register_counter_preserves_level (st : StatsState) (level level2 : Int) (src : Nat)
    (id inst : Option String) (t : SCType) :
    stats_check_level (stats_register_counter st level src id inst t).2 level2 =
      stats_check_level st level2 := by
  by_cases hlv : stats_check_level st level = true
  · rcases hk : lookupKey st.counter_hash (src % 65536) (id.getD "") (inst.getD "") with
      _ | ⟨rid, sc⟩
    · rw [register_counter_new t hlv hk]; rfl
    · rw [register_counter_found t hlv hk]; rfl
  · have hre : stats_register_counter st level src id inst t = (none, st) := by
      unfold stats_register_counter
      rw [add_counter_rejected src id inst (by simpa using hlv)]
    rw [hre]

/-- C6: two successful registrations of the same key and sub-type return the
identical counter handle (the address of the same slot), regardless of whether
the first call created the record or found it. -/
theorem C6_handle_identity (st : StatsState) (level : Int) (src : Nat)
    (id inst : Option String) (t : SCType) (hlv : stats_check_level st level = true) :
    ∃ h1 : CounterRef,
      (stats_register_counter st level src id inst t).1 = some h1 ∧
      (stats_register_counter (stats_register_counter st level src id inst t).2
          level src id inst t).1 = some h1 := by
  have hlv2 : stats_check_level (stats_register_counter st level src id inst t).2 level = true := by
    rw [register_counter_preserves_level]; exact hlv
  rcases hk : lookupKey st.counter_hash (src % 65536) (id.getD "") (inst.getD "") with
    _ | ⟨rid, sc⟩
  · exact ⟨(st.next_id, t), register_counter_fst_new t hlv hk,
      register_counter_fst_found t hlv2 (register_counter_snd_lookup_new t hlv hk)⟩
  · exact ⟨(rid, t), register_counter_fst_found t hlv hk,
      register_counter_fst_found t hlv2 (register_counter_snd_lookup_found t hlv hk)⟩

/-- Witness for C6: registering the same key and sub-type twice on the empty
registry returns the same handle both times. -/
theorem C6_handle_identity_witness :
    ∃ h1 : CounterRef,
      (stats_register_counter stEmpty3 2 1 (some "k") none SCType.processed).1 = some h1 ∧
      (stats_register_counter
          (stats_register_counter stEmpty3 2 1 (some "k") none SCType.processed).2
          2 1 (some "k") none SCType.processed).1 = some h1 :=
  C6_handle_identity stEmpty3 2 1 (some "k") none SCType.processed (by decide)

/-! ## Reference-count balance: C2 -/

theorem unregister_counter_found {st : StatsState} {src : Nat} {id inst : Option String}
    {t : SCType} {rid : Nat} {sc : StatsCounter}
    (hk : lookupKey st.counter_hash (src % 65536) (id.getD "") (inst.getD "") = some (rid, sc))
    (hb : sc.live_mask &&& (1 <<< t.toNat) ≠ 0) :
    stats_unregister_counter st src id inst t (some (rid, t)) =
      some (none, { st with counter_hash := modifyRecord st.counter_hash rid (fun r => { r with ref_cnt := (r.ref_cnt + 65535) % 65536 }) }) := by
  simp only [stats_unregister_counter, hk]
  rw [if_neg (by simpa using hb), if_neg (by simp)]

theorem runOps_inv (level : Int) (src : Nat) (id inst : Option String) (t : SCType) :
    ∀ (ops : List RegOp) (st st' : StatsState) (r u : Nat),
      stats_check_level st level = true →
      runInv src id inst t r u st →
      runOps level src id inst t st ops = some st' →
      runInv src id inst t (r + countReg ops) (u + countUnreg ops) st' ∧
      stats_check_level st' level = true
  | [], st, st', r, u, hlv, hinv, hrun => by
      rw [runOps, Option.some.injEq] at hrun
      subst hrun
      rw [countReg, countUnreg]
      exact ⟨hinv, hlv⟩
  | .reg :: rest, st, st', r, u, hlv, hinv, hrun => by
      rw [runOps] at hrun
      have hlv2 : stats_check_level (stats_register_counter st level src id inst t).2 level = true := by
        rw [register_counter_preserves_level]; exact hlv
      have hinv2 : runInv src id inst t (r + 1) u
          (stats_register_counter st level src id inst t).2 := by
        rcases hk : lookupKey st.counter_hash (src % 65536) (id.getD "") (inst.getD "") with
          _ | ⟨rid, sc⟩
        · have hcomp := hinv
          simp only [runInv, hk] at hcomp
          have hlk := register_counter_snd_lookup_new t hlv hk
          simp only [runInv, hlk, newRecord]
          refine ⟨by omega, by norm_num, or_shift_and_self 0 t.toNat, ?_⟩
          have hr0 : r = 0 := hcomp.1
          have hu0 : u = 0 := hcomp.2
          subst hr0; subst hu0
          decide
        · have hcomp := hinv
          simp only [runInv, hk] at hcomp
          obtain ⟨h1, h2, h3, h4⟩ := hcomp
          have hlk := register_counter_snd_lookup_found t hlv hk
          simp only [runInv, hlk]
          refine ⟨by omega, by omega, or_preserves_live_bit _ h3, ?_⟩
          omega
      have hrest := runOps_inv level src id inst t rest _ st' (r + 1) u hlv2 hinv2 hrun
      rw [countReg, countUnreg]
      have hc : r + (countReg rest + 1) = (r + 1) + countReg rest := by omega
      rw [hc]
      exact hrest
  | .unreg :: rest, st, st', r, u, hlv, hinv, hrun => by
      rw [runOps] at hrun
      rcases hk : lookupKey st.counter_hash (src % 65536) (id.getD "") (inst.getD "") with
        _ | ⟨rid, sc⟩
      · simp only [hk] at hrun
        exact Option.noConfusion hrun
      · simp only [hk] at hrun
        have hcomp := hinv
        simp only [runInv, hk] at hcomp
        obtain ⟨h1, h2, h3, h4⟩ := hcomp
        rw [unregister_counter_found hk h3] at hrun
        have hKP : KeyPreserving (fun r : StatsCounter => { r with ref_cnt := (r.ref_cnt + 65535) % 65536 }) :=
          fun r => ⟨rfl, rfl, rfl⟩
        have hlk := lookupKey_modifyRecord hKP hk
        have hinv2 : runInv src id inst t r (u + 1)
            { st with counter_hash := modifyRecord st.counter_hash rid (fun r => { r with ref_cnt := (r.ref_cnt + 65535) % 65536 }) } := by
          simp only [runInv, hlk]
          exact ⟨h1, by omega, h3, by omega⟩
        have hlv2 : stats_check_level { st with counter_hash := modifyRecord st.counter_hash rid (fun r => { r with ref_cnt := (r.ref_cnt + 65535) % 65536 }) } level = true := hlv
        have hrest := runOps_inv level src id inst t rest _ st' r (u + 1) hlv2 hinv2 hrun
        rw [countReg, countUnreg]
        have hc : u + (countUnreg rest + 1) = (u + 1) + countUnreg rest := by omega
        rw [hc]
        exact hrest

theorem countReg_replicate (k : Nat) : countReg (List.replicate k RegOp.reg) = k := by
  induction k with
  | zero => rfl
  | succ n ih => rw [List.replicate_succ, countReg, ih]

theorem countUnreg_replicate (k : Nat) : countUnreg (List.replicate k RegOp.reg) = 0 := by
  induction k with
  | zero => rfl
  | succ n ih => rw [List.replicate_succ, countUnreg, ih]

theorem regs_only_succeeds (level : Int) (src : Nat) (id inst : Option String) (t : SCType) :
    ∀ (k : Nat) (st : StatsState),
      ∃ st', runOps level src id inst t st (List.replicate k RegOp.reg) = some st'
  | 0, st => ⟨st, rfl⟩
  | k + 1, st => by
      obtain ⟨st', h⟩ := regs_only_succeeds level src id inst t k
        (stats_register_counter st level src id inst t).2
      exact ⟨st', by rw [List.replicate_succ, runOps]; exact h⟩

/-- C2 (amended): from a state without the key, after any successful run of N
registrations and M unregistrations of one key/sub-type, the record's
`ref_count` equals `(N − M) mod 2^16` — so exactly `N − M` whenever `M ≤ N`
and `N − M < 2^16` (`ref_cnt` is a 16-bit counter) — and the record is still
present in the map whenever `N ≥ 1`, even when the count reaches 0:
unregistration never removes a record, only the pruning sweep does. -/
theorem C2_refcount_balance (st : StatsState) (level : Int) (src : Nat)
    (id inst : Option String) (t : SCType) (ops : List RegOp) (st' : StatsState)
    (hlv : stats_check_level st level = true)
    (hk : lookupKey st.counter_hash (src % 65536) (id.getD "") (inst.getD "") = none)
    (hrun : runOps level src id inst t st ops = some st')
    (hN : 1 ≤ countReg ops) :
    ∃ rid sc,
      lookupKey st'.counter_hash (src % 65536) (id.getD "") (inst.getD "") = some (rid, sc) ∧
      (sc.ref_cnt : Int) = ((countReg ops : Int) - (countUnreg ops : Int)) % 65536 ∧
      (countUnreg ops ≤ countReg ops → countReg ops - countUnreg ops < 65536 →
        sc.ref_cnt = countReg ops - countUnreg ops) := by
  have hinv0 : runInv src id inst t 0 0 st := by
    simp [runInv, hk]
  obtain ⟨hinv, -⟩ := runOps_inv level src id inst t ops st st' 0 0 hlv hinv0 hrun
  rcases hik : lookupKey st'.counter_hash (src % 65536) (id.getD "") (inst.getD "") with
    _ | ⟨rid, sc⟩
  · simp only [runInv, hik] at hinv
    obtain ⟨ha, -⟩ := hinv
    omega
  · simp only [runInv, hik] at hinv
    obtain ⟨h1, h2, h3, h4⟩ := hinv
    refine ⟨rid, sc, rfl, by omega, fun hm hlt => by omega⟩

/-- Witness for C2 (amended): the run reg, reg, unreg leaves `ref_cnt = 1`. -/
theorem C2_refcount_balance_witness :
    ∃ rid sc,
      lookupKey ({ counter_hash := [(0, { counters := CounterSlots.zero, ref_cnt := 1, source := 1, id := "k", instance_ := "", live_mask := 2, dynamic := false })], next_id := 1, current_stats_level := 3 } : StatsState).counter_hash
          (1 % 65536) ((some "k").getD "") ((none : Option String).getD "") = some (rid, sc) ∧
      (sc.ref_cnt : Int) = ((countReg [RegOp.reg, RegOp.reg, RegOp.unreg] : Int) -
        (countUnreg [RegOp.reg, RegOp.reg, RegOp.unreg] : Int)) % 65536 ∧
      (countUnreg [RegOp.reg, RegOp.reg, RegOp.unreg] ≤ countReg [RegOp.reg, RegOp.reg, RegOp.unreg] →
        countReg [RegOp.reg, RegOp.reg, RegOp.unreg] - countUnreg [RegOp.reg, RegOp.reg, RegOp.unreg] < 65536 →
        sc.ref_cnt = countReg [RegOp.reg, RegOp.reg, RegOp.unreg] - countUnreg [RegOp.reg, RegOp.reg, RegOp.unreg]) :=
  C2_refcount_balance stEmpty3 3 1 (some "k") none SCType.processed
    [RegOp.reg, RegOp.reg, RegOp.unreg]
    { counter_hash := [(0, { counters := CounterSlots.zero, ref_cnt := 1, source := 1, id := "k", instance_ := "", live_mask := 2, dynamic := false })], next_id := 1, current_stats_level := 3 }
    (by decide) (by decide) (by decide) (by decide)

/-- C2 counterexample: the claim as stated fails at N = 2^16 registrations and
M = 0 unregistrations — `ref_cnt` is a `guint16` and wraps to 0 instead of
holding N − M = 65536. -/
theorem C2_refcount_wrap_counterexample :
    ∃ st', runOps 3 1 (some "k") none SCType.processed stEmpty3
        (List.replicate 65536 RegOp.reg) = some st' ∧
      countReg (List.replicate 65536 RegOp.reg) = 65536 ∧
      countUnreg (List.replicate 65536 RegOp.reg) = 0 ∧
      ∃ rid sc, lookupKey st'.counter_hash (1 % 65536) ((some "k").getD "")
          ((none : Option String).getD "") = some (rid, sc) ∧ sc.ref_cnt ≠ 65536 := by
  obtain ⟨st', hrun⟩ := regs_only_succeeds 3 1 (some "k") none SCType.processed 65536 stEmpty3
  refine ⟨st', hrun, countReg_replicate 65536, countUnreg_replicate 65536, ?_⟩
  have hinv0 : runInv 1 (some "k") none SCType.processed 0 0 stEmpty3 := by
    simp [runInv, stEmpty3, lookupKey]
  obtain ⟨hinv, -⟩ := runOps_inv 3 1 (some "k") none SCType.processed
    (List.replicate 65536 RegOp.reg) stEmpty3 st' 0 0 (by decide) hinv0 hrun
  rcases hik : lookupKey st'.counter_hash (1 % 65536) ((some "k").getD "")
      ((none : Option String).getD "") with _ | ⟨rid, sc⟩
  · simp only [runInv, hik, countReg_replicate, countUnreg_replicate] at hinv
    obtain ⟨ha, -⟩ := hinv
    omega
  · simp only [runInv, hik, countReg_replicate, countUnreg_replicate] at hinv
    obtain ⟨-, h2, -, h4⟩ := hinv
    exact ⟨rid, sc, rfl, by omega⟩

/-! ## Dynamic registration equations and rid lookups (towards C5) -/

theorem lookupRid_modifyRecord (h : List (Nat × StatsCounter)) (rid : Nat)
    (f : StatsCounter → StatsCounter) :
    lookupRid (modifyRecord h rid f) rid = (lookupRid h rid).map (fun p => (p.1, f p.2)) := by
  induction h with
  | nil => rfl
  | cons q rest ih =>
      by_cases hq : q.1 = rid <;> simp [modifyRecord, lookupRid, hq, ih]

theorem lookupRid_append_fresh {h : List (Nat × StatsCounter)} {rid : Nat}
    (sc : StatsCounter) (hfr : ∀ p ∈ h, p.1 ≠ rid) :
    lookupRid (h ++ [(rid, sc)]) rid = some (rid, sc) := by
  induction h with
  | nil => simp [lookupRid]
  | cons q rest ih =>
      rw [List.cons_append, lookupRid]
      rw [if_neg (hfr q (List.mem_cons_self q rest))]
      exact ih (fun p hp => hfr p (List.mem_cons_of_mem q hp))

theorem lookupRid_of_lookupKey {h : List (Nat × StatsCounter)} {src : Nat} {id inst : String}
    {rid : Nat} {sc : StatsCounter} (hnd : (h.map Prod.fst).Nodup)
    (hk : lookupKey h src id inst = some (rid, sc)) :
    lookupRid h rid = some (rid, sc) := by
  induction h with
  | nil => simp [lookupKey] at hk
  | cons q rest ih =>
      rw [lookupKey] at hk
      rw [List.map_cons, List.nodup_cons] at hnd
      by_cases hm : keyMatches src id inst q.2 = true
      · rw [if_pos hm] at hk
        have hq : q = (rid, sc) := by injection hk
        subst hq
        rw [lookupRid, if_pos rfl]
      · rw [if_neg hm] at hk
        have hmem : (rid, sc) ∈ rest := lookupKey_mem hk
        have hne : q.1 ≠ rid := by
          intro hq
          exact hnd.1 (hq ▸ List.mem_map_of_mem Prod.fst hmem)
        rw [lookupRid, if_neg hne]
        exact ih hnd.2 hk

theorem register_dynamic_found {st : StatsState} {level : Int} {src : Nat}
    {id inst : Option String} {rid : Nat} {sc : StatsCounter} (t : SCType)
    (hlv : stats_check_level st level = true)
    (hk : lookupKey st.counter_hash (src % 65536) (id.getD "") (inst.getD "") = some (rid, sc))
    (hok : sc.ref_cnt = 0 ∨ sc.dynamic = true) :
    stats_register_dynamic_counter st level src id inst t =
      some (some rid, some (rid, t), sc.ref_cnt == 0,
        { st with counter_hash := modifyRecord (modifyRecord st.counter_hash rid (fun r => { r with ref_cnt := (r.ref_cnt + 1) % 65536 })) rid (fun r => { r with dynamic := true, live_mask := r.live_mask ||| (1 <<< t.toNat) }) }) := by
  unfold stats_register_dynamic_counter
  simp only [add_counter_found hlv hk]
  rw [if_neg ?hc]
  case hc =>
    rcases hok with h0 | hdy
    · simp [h0]
    · simp [hdy]

theorem register_dynamic_new {st : StatsState} {level : Int} {src : Nat}
    {id inst : Option String} (t : SCType)
    (hlv : stats_check_level st level = true)
    (hk : lookupKey st.counter_hash (src % 65536) (id.getD "") (inst.getD "") = none) :
    stats_register_dynamic_counter st level src id inst t =
      some (some st.next_id, some (st.next_id, t), true,
        { st with
          counter_hash := modifyRecord (st.counter_hash ++ [(st.next_id, newRecord (src % 65536) (id.getD "") (inst.getD ""))]) st.next_id (fun r => { r with dynamic := true, live_mask := r.live_mask ||| (1 <<< t.toNat) }),
          next_id := st.next_id + 1 }) := by
  unfold stats_register_dynamic_counter
  simp only [add_counter_new hlv hk]
  rw [if_neg (by simp)]

theorem register_associated_some {st : StatsState} {rid rid2 : Nat} {r : StatsCounter}
    (t : SCType) (hrid : lookupRid st.counter_hash rid = some (rid2, r))
    (hdy : r.dynamic = true) :
    stats_register_associated_counter st (some rid) t =
      some (some (rid, t),
        { st with counter_hash := modifyRecord st.counter_hash rid (fun r => { r with live_mask := r.live_mask ||| (1 <<< t.toNat), ref_cnt := (r.ref_cnt + 1) % 65536 }) }) := by
  unfold stats_register_associated_counter
  simp only [hrid]
  rw [if_neg (by simp [hdy])]

theorem unregister_dynamic_some {st : StatsState} {rid rid2 : Nat} {r : StatsCounter}
    (t : SCType) (hrid : lookupRid st.counter_hash rid = some (rid2, r))
    (hb : r.live_mask &&& (1 <<< t.toNat) ≠ 0) :
    stats_unregister_dynamic_counter st (some rid) t (some (rid, t)) =
      some (some (rid, t),
        { st with counter_hash := modifyRecord st.counter_hash rid (fun r => { r with ref_cnt := (r.ref_cnt + 65535) % 65536 }) }) := by
  unfold stats_unregister_dynamic_counter
  simp only [hrid]
  rw [if_neg (by simpa using hb), if_neg (by simp)]

/-! ## The register-and-bump composite: C5 -/

/-- C5: an admitted `stats_register_and_increment_dynamic_counter` call
registers or finds the record for its key, increments the record's PROCESSED
value by exactly one, sets its STAMP value to the timestamp when that is
non-negative, and returns the record's `ref_count` to its pre-call value (0 for
a newly created record), while the record itself persists in the registry for
later pruning/export.  The hypotheses are the reachable-state invariants
(well-formed heap, 16-bit `ref_cnt`) plus the no-fault condition of C4 (an
existing record must be orphaned or dynamic).  The PROCESSED/STAMP accumulator
semantics (`stats_counter_inc`, `stats_counter_set`) are modelled from the
spec, `stats.h` being absent from the snapshot. -/
theorem C5_register_and_bump (st : StatsState) (level : Int) (src : Nat)
    (id inst : Option String) (T : Int)
    (hwf : wfState st)
    (hlv : stats_check_level st level = true)
    (hok : ∀ rid sc,
      lookupKey st.counter_hash (src % 65536) (id.getD "") (inst.getD "") = some (rid, sc) →
      (sc.ref_cnt = 0 ∨ sc.dynamic = true) ∧ sc.ref_cnt < 65536) :
    ∃ st' rid sc',
      stats_register_and_increment_dynamic_counter st level src id inst T = some st' ∧
      lookupKey st'.counter_hash (src % 65536) (id.getD "") (inst.getD "") = some (rid, sc') ∧
      sc'.counters.processed =
        ((lookupKey st.counter_hash (src % 65536) (id.getD "") (inst.getD "")).map
          (fun p => p.2.counters.processed)).getD 0 + 1 ∧
      (0 ≤ T → (sc'.counters.stamp : Int) = T) ∧
      sc'.ref_cnt =
        ((lookupKey st.counter_hash (src % 65536) (id.getD "") (inst.getD "")).map
          (fun p => p.2.ref_cnt)).getD 0 := by
  have hKPa : KeyPreserving (fun r : StatsCounter => { r with ref_cnt := (r.ref_cnt + 1) % 65536 }) := fun r => ⟨rfl, rfl, rfl⟩
  have hKPb : KeyPreserving (fun r : StatsCounter => { r with dynamic := true, live_mask := r.live_mask ||| (1 <<< SCType.processed.toNat) }) := fun r => ⟨rfl, rfl, rfl⟩
  have hKPc : KeyPreserving (fun r : StatsCounter => { r with counters := r.counters.set SCType.processed (r.counters.get SCType.processed + 1) }) := fun r => ⟨rfl, rfl, rfl⟩
  have hKPd : KeyPreserving (fun r : StatsCounter => { r with live_mask := r.live_mask ||| (1 <<< SCType.stamp.toNat), ref_cnt := (r.ref_cnt + 1) % 65536 }) := fun r => ⟨rfl, rfl, rfl⟩
  have hKPe : KeyPreserving (fun r : StatsCounter => { r with counters := r.counters.set SCType.stamp T.toNat }) := fun r => ⟨rfl, rfl, rfl⟩
  have hKPf : KeyPreserving (fun r : StatsCounter => { r with ref_cnt := (r.ref_cnt + 65535) % 65536 }) := fun r => ⟨rfl, rfl, rfl⟩
  -- the common tail after a successful dynamic registration of PROCESSED
  have tail : ∀ (st1 : StatsState) (rid : Nat) (rec1 : StatsCounter),
      lookupKey st1.counter_hash (src % 65536) (id.getD "") (inst.getD "") = some (rid, rec1) →
      lookupRid st1.counter_hash rid = some (rid, rec1) →
      rec1.dynamic = true →
      rec1.live_mask &&& (1 <<< SCType.processed.toNat) ≠ 0 →
      ∃ st' sc',
        (if T ≥ 0 then
           match stats_register_associated_counter (stats_counter_inc st1 (some (rid, SCType.processed))) (some rid) SCType.stamp with
           | none => none
           | some (stamp, st3) =>
               match stats_unregister_dynamic_counter (stats_counter_set st3 stamp T.toNat) (some rid) SCType.stamp stamp with
               | none => none
               | some (_, st5) =>
                   match stats_unregister_dynamic_counter st5 (some rid) SCType.processed (some (rid, SCType.processed)) with
                   | none => none
                   | some (_, st6) => some st6
         else
           match stats_unregister_dynamic_counter (stats_counter_inc st1 (some (rid, SCType.processed))) (some rid) SCType.processed (some (rid, SCType.processed)) with
           | none => none
           | some (_, st6) => some st6) = some st' ∧
        lookupKey st'.counter_hash (src % 65536) (id.getD "") (inst.getD "") = some (rid, sc') ∧
        sc'.counters.processed = rec1.counters.processed + 1 ∧
        (0 ≤ T → (sc'.counters.stamp : Int) = T) ∧
        sc'.ref_cnt = (rec1.ref_cnt + 65535) % 65536 := by
    intro st1 rid rec1 hA hB hC hD
    obtain ⟨st2, he2, hk2p, hr2p⟩ :
        ∃ st2, stats_counter_inc st1 (some (rid, SCType.processed)) = st2 ∧
          lookupKey st2.counter_hash (src % 65536) (id.getD "") (inst.getD "") =
            some (rid, { rec1 with counters := rec1.counters.set SCType.processed (rec1.counters.get SCType.processed + 1) }) ∧
          lookupRid st2.counter_hash rid =
            some (rid, { rec1 with counters := rec1.counters.set SCType.processed (rec1.counters.get SCType.processed + 1) }) := by
      refine ⟨_, rfl, ?_, ?_⟩
      · exact lookupKey_modifyRecord hKPc hA
      · show lookupRid (modifyRecord st1.counter_hash rid _) rid = _
        rw [lookupRid_modifyRecord, hB]
        rfl
    obtain ⟨rec2, hk2, hr2, hgdyn, hgproc, hgref, hgmask⟩ :
        ∃ rec2 : StatsCounter,
          lookupKey st2.counter_hash (src % 65536) (id.getD "") (inst.getD "") = some (rid, rec2) ∧
          lookupRid st2.counter_hash rid = some (rid, rec2) ∧
          rec2.dynamic = true ∧
          rec2.counters.processed = rec1.counters.processed + 1 ∧
          rec2.ref_cnt = rec1.ref_cnt ∧
          rec2.live_mask = rec1.live_mask :=
      ⟨_, hk2p, hr2p, hC, rfl, rfl, rfl⟩
    have hD2 : rec2.live_mask &&& (1 <<< SCType.processed.toNat) ≠ 0 := by
      rw [hgmask]; exact hD
    by_cases hT : T ≥ 0
    · obtain ⟨st3, he3, hk3p, hr3p⟩ :
          ∃ st3, stats_register_associated_counter st2 (some rid) SCType.stamp =
              some (some (rid, SCType.stamp), st3) ∧
            lookupKey st3.counter_hash (src % 65536) (id.getD "") (inst.getD "") =
              some (rid, { rec2 with live_mask := rec2.live_mask ||| (1 <<< SCType.stamp.toNat), ref_cnt := (rec2.ref_cnt + 1) % 65536 }) ∧
            lookupRid st3.counter_hash rid =
              some (rid, { rec2 with live_mask := rec2.live_mask ||| (1 <<< SCType.stamp.toNat), ref_cnt := (rec2.ref_cnt + 1) % 65536 }) := by
        refine ⟨_, register_associated_some SCType.stamp hr2 hgdyn, ?_, ?_⟩
        · exact lookupKey_modifyRecord hKPd hk2
        · show lookupRid (modifyRecord st2.counter_hash rid _) rid = _
          rw [lookupRid_modifyRecord, hr2]
          rfl
      obtain ⟨rec3, hk3, hr3, h3proc, h3stampbit, h3procbit, h3ref⟩ :
          ∃ rec3 : StatsCounter,
            lookupKey st3.counter_hash (src % 65536) (id.getD "") (inst.getD "") = some (rid, rec3) ∧
            lookupRid st3.counter_hash rid = some (rid, rec3) ∧
            rec3.counters.processed = rec2.counters.processed ∧
            rec3.live_mask &&& (1 <<< SCType.stamp.toNat) ≠ 0 ∧
            rec3.live_mask &&& (1 <<< SCType.processed.toNat) ≠ 0 ∧
            rec3.ref_cnt = (rec2.ref_cnt + 1) % 65536 :=
        ⟨_, hk3p, hr3p, rfl, or_shift_and_self rec2.live_mask SCType.stamp.toNat,
         or_preserves_live_bit _ hD2, rfl⟩
      obtain ⟨st4, he4, hk4p, hr4p⟩ :
          ∃ st4, stats_counter_set st3 (some (rid, SCType.stamp)) T.toNat = st4 ∧
            lookupKey st4.counter_hash (src % 65536) (id.getD "") (inst.getD "") =
              some (rid, { rec3 with counters := rec3.counters.set SCType.stamp T.toNat }) ∧
            lookupRid st4.counter_hash rid =
              some (rid, { rec3 with counters := rec3.counters.set SCType.stamp T.toNat }) := by
        refine ⟨_, rfl, ?_, ?_⟩
        · exact lookupKey_modifyRecord hKPe hk3
        · show lookupRid (modifyRecord st3.counter_hash rid _) rid = _
          rw [lookupRid_modifyRecord, hr3]
          rfl
      obtain ⟨rec4, hk4, hr4, h4proc, h4stamp, h4stampbit, h4procbit, h4ref⟩ :
          ∃ rec4 : StatsCounter,
            lookupKey st4.counter_hash (src % 65536) (id.getD "") (inst.getD "") = some (rid, rec4) ∧
            lookupRid st4.counter_hash rid = some (rid, rec4) ∧
            rec4.counters.processed = rec3.counters.processed ∧
            rec4.counters.stamp = T.toNat ∧
            rec4.live_mask &&& (1 <<< SCType.stamp.toNat) ≠ 0 ∧
            rec4.live_mask &&& (1 <<< SCType.processed.toNat) ≠ 0 ∧
            rec4.ref_cnt = rec3.ref_cnt := by
        refine ⟨_, hk4p, hr4p, ?_, ?_, h3stampbit, h3procbit, rfl⟩
        · cases hc : rec3.counters
          simp [CounterSlots.set]
        · cases hc : rec3.counters
          simp [CounterSlots.set]
      obtain ⟨st5, he5, hk5p, hr5p⟩ :
          ∃ st5, stats_unregister_dynamic_counter st4 (some rid) SCType.stamp
              (some (rid, SCType.stamp)) = some (some (rid, SCType.stamp), st5) ∧
            lookupKey st5.counter_hash (src % 65536) (id.getD "") (inst.getD "") =
              some (rid, { rec4 with ref_cnt := (rec4.ref_cnt + 65535) % 65536 }) ∧
            lookupRid st5.counter_hash rid =
              some (rid, { rec4 with ref_cnt := (rec4.ref_cnt + 65535) % 65536 }) := by
        refine ⟨_, unregister_dynamic_some SCType.stamp hr4 h4stampbit, ?_, ?_⟩
        · exact lookupKey_modifyRecord hKPf hk4
        · show lookupRid (modifyRecord st4.counter_hash rid _) rid = _
          rw [lookupRid_modifyRecord, hr4]
          rfl
      obtain ⟨rec5, hk5, hr5, h5proc, h5stamp, h5procbit, h5ref⟩ :
          ∃ rec5 : StatsCounter,
            lookupKey st5.counter_hash (src % 65536) (id.getD "") (inst.getD "") = some (rid, rec5) ∧
            lookupRid st5.counter_hash rid = some (rid, rec5) ∧
            rec5.counters.processed = rec4.counters.processed ∧
            rec5.counters.stamp = rec4.counters.stamp ∧
            rec5.live_mask &&& (1 <<< SCType.processed.toNat) ≠ 0 ∧
            rec5.ref_cnt = (rec4.ref_cnt + 65535) % 65536 :=
        ⟨_, hk5p, hr5p, rfl, rfl, h4procbit, rfl⟩
      obtain ⟨st6, he6, hk6p⟩ :
          ∃ st6, stats_unregister_dynamic_counter st5 (some rid) SCType.processed
              (some (rid, SCType.processed)) = some (some (rid, SCType.processed), st6) ∧
            lookupKey st6.counter_hash (src % 65536) (id.getD "") (inst.getD "") =
              some (rid, { rec5 with ref_cnt := (rec5.ref_cnt + 65535) % 65536 }) := by
        refine ⟨_, unregister_dynamic_some SCType.processed hr5 h5procbit, ?_⟩
        exact lookupKey_modifyRecord hKPf hk5
      refine ⟨st6, { rec5 with ref_cnt := (rec5.ref_cnt + 65535) % 65536 }, ?_, hk6p, ?_, ?_, ?_⟩
      · rw [if_pos hT, he2]
        simp only [he3]
        rw [he4]
        simp only [he5, he6]
      · show rec5.counters.processed = rec1.counters.processed + 1
        omega
      · intro h0
        show ((rec5.counters.stamp : Nat) : Int) = T
        rw [h5stamp, h4stamp]
        exact Int.toNat_of_nonneg h0
      · show (rec5.ref_cnt + 65535) % 65536 = (rec1.ref_cnt + 65535) % 65536
        omega
    · obtain ⟨st6, he6, hk6p⟩ :
          ∃ st6, stats_unregister_dynamic_counter st2 (some rid) SCType.processed
              (some (rid, SCType.processed)) = some (some (rid, SCType.processed), st6) ∧
            lookupKey st6.counter_hash (src % 65536) (id.getD "") (inst.getD "") =
              some (rid, { rec2 with ref_cnt := (rec2.ref_cnt + 65535) % 65536 }) := by
        refine ⟨_, unregister_dynamic_some SCType.processed hr2 hD2, ?_⟩
        exact lookupKey_modifyRecord hKPf hk2
      refine ⟨st6, { rec2 with ref_cnt := (rec2.ref_cnt + 65535) % 65536 }, ?_, hk6p, ?_, ?_, ?_⟩
      · rw [if_neg hT, he2]
        simp only [he6]
      · show rec2.counters.processed = rec1.counters.processed + 1
        omega
      · intro h0
        exact absurd h0 hT
      · show (rec2.ref_cnt + 65535) % 65536 = (rec1.ref_cnt + 65535) % 65536
        omega
  rcases hk : lookupKey st.counter_hash (src % 65536) (id.getD "") (inst.getD "") with _ | ⟨rid, sc⟩
  · -- no record yet: the call allocates one
    have hfr : ∀ p ∈ st.counter_hash, p.1 ≠ st.next_id := fun p hp =>
      Nat.ne_of_lt (hwf.1 p hp)
    have hbase : lookupKey
        (st.counter_hash ++ [(st.next_id, newRecord (src % 65536) (id.getD "") (inst.getD ""))])
        (src % 65536) (id.getD "") (inst.getD "") =
        some (st.next_id, newRecord (src % 65536) (id.getD "") (inst.getD "")) := by
      rw [lookupKey_append hk, lookupKey, if_pos (keyMatches_newRecord _ _ _)]
    have hbaser : lookupRid
        (st.counter_hash ++ [(st.next_id, newRecord (src % 65536) (id.getD "") (inst.getD ""))])
        st.next_id =
        some (st.next_id, newRecord (src % 65536) (id.getD "") (inst.getD "")) :=
      lookupRid_append_fresh _ hfr
    have hcall : stats_register_and_increment_dynamic_counter st level src id inst T =
        (if T ≥ 0 then
           match stats_register_associated_counter (stats_counter_inc { st with counter_hash := modifyRecord (st.counter_hash ++ [(st.next_id, newRecord (src % 65536) (id.getD "") (inst.getD ""))]) st.next_id (fun r => { r with dynamic := true, live_mask := r.live_mask ||| (1 <<< SCType.processed.toNat) }), next_id := st.next_id + 1 } (some (st.next_id, SCType.processed))) (some st.next_id) SCType.stamp with
           | none => none
           | some (stamp, st3) =>
               match stats_unregister_dynamic_counter (stats_counter_set st3 stamp T.toNat) (some st.next_id) SCType.stamp stamp with
               | none => none
               | some (_, st5) =>
                   match stats_unregister_dynamic_counter st5 (some st.next_id) SCType.processed (some (st.next_id, SCType.processed)) with
                   | none => none
                   | some (_, st6) => some st6
         else
           match stats_unregister_dynamic_counter (stats_counter_inc { st with counter_hash := modifyRecord (st.counter_hash ++ [(st.next_id, newRecord (src % 65536) (id.getD "") (inst.getD ""))]) st.next_id (fun r => { r with dynamic := true, live_mask := r.live_mask ||| (1 <<< SCType.processed.toNat) }), next_id := st.next_id + 1 } (some (st.next_id, SCType.processed))) (some st.next_id) SCType.processed (some (st.next_id, SCType.processed)) with
           | none => none
           | some (_, st6) => some st6) := by
      unfold stats_register_and_increment_dynamic_counter
      rw [register_dynamic_new SCType.processed hlv hk]
    obtain ⟨st', sc', heq, hkf, hp, hs, hrf⟩ :=
      tail { st with counter_hash := modifyRecord (st.counter_hash ++ [(st.next_id, newRecord (src % 65536) (id.getD "") (inst.getD ""))]) st.next_id (fun r => { r with dynamic := true, live_mask := r.live_mask ||| (1 <<< SCType.processed.toNat) }), next_id := st.next_id + 1 }
        st.next_id
        { newRecord (src % 65536) (id.getD "") (inst.getD "") with dynamic := true, live_mask := 0 ||| (1 <<< SCType.processed.toNat) }
        (lookupKey_modifyRecord hKPb hbase)
        (by show lookupRid (modifyRecord _ st.next_id _) st.next_id = _
            rw [lookupRid_modifyRecord, hbaser]
            rfl)
        rfl
        (or_shift_and_self 0 SCType.processed.toNat)
    refine ⟨st', st.next_id, sc', hcall.trans heq, hkf, ?_, hs, ?_⟩
    · simpa using hp
    · have hrf2 : sc'.ref_cnt = (1 + 65535) % 65536 := hrf
      simp only [Option.map_none', Option.getD_none]
      omega
  · -- the record exists: it must be orphaned or dynamic, and gets re-used
    obtain ⟨hok1, hlt⟩ := hok rid sc hk
    have hrid0 : lookupRid st.counter_hash rid = some (rid, sc) :=
      lookupRid_of_lookupKey hwf.2 hk
    have hcall : stats_register_and_increment_dynamic_counter st level src id inst T =
        (if T ≥ 0 then
           match stats_register_associated_counter (stats_counter_inc { st with counter_hash := modifyRecord (modifyRecord st.counter_hash rid (fun r => { r with ref_cnt := (r.ref_cnt + 1) % 65536 })) rid (fun r => { r with dynamic := true, live_mask := r.live_mask ||| (1 <<< SCType.processed.toNat) }) } (some (rid, SCType.processed))) (some rid) SCType.stamp with
           | none => none
           | some (stamp, st3) =>
               match stats_unregister_dynamic_counter (stats_counter_set st3 stamp T.toNat) (some rid) SCType.stamp stamp with
               | none => none
               | some (_, st5) =>
                   match stats_unregister_dynamic_counter st5 (some rid) SCType.processed (some (rid, SCType.processed)) with
                   | none => none
                   | some (_, st6) => some st6
         else
           match stats_unregister_dynamic_counter (stats_counter_inc { st with counter_hash := modifyRecord (modifyRecord st.counter_hash rid (fun r => { r with ref_cnt := (r.ref_cnt + 1) % 65536 })) rid (fun r => { r with dynamic := true, live_mask := r.live_mask ||| (1 <<< SCType.processed.toNat) }) } (some (rid, SCType.processed))) (some rid) SCType.processed (some (rid, SCType.processed)) with
           | none => none
           | some (_, st6) => some st6) := by
      unfold stats_register_and_increment_dynamic_counter
      rw [register_dynamic_found SCType.processed hlv hk hok1]
    obtain ⟨st', sc', heq, hkf, hp, hs, hrf⟩ :=
      tail { st with counter_hash := modifyRecord (modifyRecord st.counter_hash rid (fun r => { r with ref_cnt := (r.ref_cnt + 1) % 65536 })) rid (fun r => { r with dynamic := true, live_mask := r.live_mask ||| (1 <<< SCType.processed.toNat) }) }
        rid
        { sc with ref_cnt := (sc.ref_cnt + 1) % 65536, dynamic := true, live_mask := sc.live_mask ||| (1 <<< SCType.processed.toNat) }
        (lookupKey_modifyRecord hKPb (lookupKey_modifyRecord hKPa hk))
        (by show lookupRid (modifyRecord (modifyRecord st.counter_hash rid _) rid _) rid = _
            rw [lookupRid_modifyRecord, lookupRid_modifyRecord, hrid0]
            rfl)
        rfl
        (or_shift_and_self sc.live_mask SCType.processed.toNat)
    refine ⟨st', rid, sc', hcall.trans heq, hkf, ?_, hs, ?_⟩
    · simpa using hp
    · have hrf2 : sc'.ref_cnt = ((sc.ref_cnt + 1) % 65536 + 65535) % 65536 := hrf
      simp only [Option.map_some', Option.getD_some]
      omega

/-- Witness for C5: the spec's example — a dynamic bump of
`(TCP|SOURCE, "", "10.0.0.1")` with timestamp 99 on the empty registry. -/
theorem C5_register_and_bump_witness :
    ∃ st' rid sc',
      stats_register_and_increment_dynamic_counter stEmpty3 3 (0x100 + 3) none
          (some "10.0.0.1") 99 = some st' ∧
      lookupKey st'.counter_hash ((0x100 + 3) % 65536) ((none : Option String).getD "")
          ((some "10.0.0.1").getD "") = some (rid, sc') ∧
      sc'.counters.processed =
        ((lookupKey stEmpty3.counter_hash ((0x100 + 3) % 65536) ((none : Option String).getD "")
            ((some "10.0.0.1").getD "")).map (fun p => p.2.counters.processed)).getD 0 + 1 ∧
      (0 ≤ (99 : Int) → (sc'.counters.stamp : Int) = 99) ∧
      sc'.ref_cnt =
        ((lookupKey stEmpty3.counter_hash ((0x100 + 3) % 65536) ((none : Option String).getD "")
            ((some "10.0.0.1").getD "")).map (fun p => p.2.ref_cnt)).getD 0 :=
  C5_register_and_bump stEmpty3 3 (0x100 + 3) none (some "10.0.0.1") 99
    ⟨fun p hp => absurd hp (List.not_mem_nil p), List.nodup_nil⟩
    (by decide)
    (fun rid sc h => Option.noConfusion h)

/-! ## The CSV escaper: character-level lemmas -/

theorem concatMapChars_append (f : Char → List Char) (a b : List Char) :
    concatMapChars f (a ++ b) = concatMapChars f a ++ concatMapChars f b := by
  induction a with
  | nil => rfl
  | cons c cs ih => simp [concatMapChars, ih]

theorem utf8_cons (c : Char) (s : List Char) :
    utf8_escape_string (c :: s) =
      (if c.toNat < 0x20 || c.toNat == 0x7f then
        ['\\', 'x', hexDigitChar (c.toNat / 16), hexDigitChar (c.toNat % 16)]
      else [c]) ++ utf8_escape_string s := rfl

theorem utf8_append (a b : List Char) :
    utf8_escape_string (a ++ b) = utf8_escape_string a ++ utf8_escape_string b :=
  concatMapChars_append _ a b

theorem hexDigitChar_mem (n : Nat) : hexDigitChar n ∈ "0123456789abcdef".data := by
  unfold hexDigitChar
  by_cases h : n < ("0123456789abcdef".data).length
  · rw [List.getD_eq_getElem _ _ h]
    exact List.getElem_mem _
  · rw [List.getD_eq_default _ _ (Nat.le_of_not_lt h)]
    decide

theorem hex_clean : ∀ c ∈ "0123456789abcdef".data,
    c ≠ ';' ∧ c ≠ '\n' ∧ c ≠ '"' ∧ c ≠ '\\' := by decide

theorem mem_utf8 {c' : Char} {s : List Char} (h : c' ∈ utf8_escape_string s) :
    (c' ∈ s ∧ (c'.toNat < 0x20 || c'.toNat == 0x7f) = false) ∨
      c' = '\\' ∨ c' = 'x' ∨ c' ∈ "0123456789abcdef".data := by
  induction s with
  | nil => exact absurd h (List.not_mem_nil _)
  | cons c cs ih =>
      rw [utf8_cons] at h
      rcases List.mem_append.mp h with h1 | h1
      · by_cases hc : (c.toNat < 0x20 || c.toNat == 0x7f) = true
        · rw [if_pos hc] at h1
          simp only [List.mem_cons, List.not_mem_nil, or_false] at h1
          rcases h1 with h1 | h1 | h1 | h1
          · exact Or.inr (Or.inl h1)
          · exact Or.inr (Or.inr (Or.inl h1))
          · exact Or.inr (Or.inr (Or.inr (h1 ▸ hexDigitChar_mem _)))
          · exact Or.inr (Or.inr (Or.inr (h1 ▸ hexDigitChar_mem _)))
        · rw [if_neg hc] at h1
          simp only [List.mem_cons, List.not_mem_nil, or_false] at h1
          subst h1
          exact Or.inl ⟨List.mem_cons_self _ _, by simpa using hc⟩
      · rcases ih h1 with ⟨hm, hcc⟩ | hrest
        · exact Or.inl ⟨List.mem_cons_of_mem _ hm, hcc⟩
        · exact Or.inr hrest

theorem utf8_no_newline (s : List Char) : '\n' ∉ utf8_escape_string s := by
  intro h
  rcases mem_utf8 h with ⟨-, hcc⟩ | h1 | h1 | h1
  · exact absurd hcc (by decide)
  · exact absurd h1 (by decide)
  · exact absurd h1 (by decide)
  · exact absurd h1 (by decide)

theorem utf8_no_semi {s : List Char} (hs : ';' ∉ s) : ';' ∉ utf8_escape_string s := by
  intro h
  rcases mem_utf8 h with ⟨hm, -⟩ | h1 | h1 | h1
  · exact hs hm
  · exact absurd h1 (by decide)
  · exact absurd h1 (by decide)
  · exact absurd h1 (by decide)

theorem utf8_head_ne_quote {s : List Char} (hs : s.head? ≠ some '"') :
    (utf8_escape_string s).head? ≠ some '"' := by
  cases s with
  | nil => simp [utf8_escape_string, concatMapChars]
  | cons c cs =>
      rw [utf8_cons]
      by_cases hc : (c.toNat < 0x20 || c.toNat == 0x7f) = true
      · rw [if_pos hc, List.cons_append]
        intro hx
        rw [List.head?_cons, Option.some.injEq] at hx
        exact absurd hx (by decide)
      · rw [if_neg hc, List.singleton_append]
        simpa using hs

theorem QuotedBody_append {a b : List Char} (ha : QuotedBody a) (hb : QuotedBody b) :
    QuotedBody (a ++ b) := by
  induction ha with
  | nil => exact hb
  | plain h1 h2 _ ih => exact QuotedBody.plain h1 h2 ih
  | esc _ ih => exact QuotedBody.esc ih

theorem quotedBody_utf8_escape_quotes {var : List Char} (hnb : '\\' ∉ var) :
    QuotedBody (utf8_escape_string (csv_escape_quotes var)) := by
  induction var with
  | nil => exact QuotedBody.nil
  | cons c cs ih =>
      have hnb2 : '\\' ∉ cs := fun h => hnb (List.mem_cons_of_mem _ h)
      have hc : c ≠ '\\' := fun h => hnb (h ▸ List.mem_cons_self _ _)
      rw [csv_escape_quotes, utf8_append]
      refine QuotedBody_append ?_ (ih hnb2)
      by_cases hq : c = '"'
      · rw [if_pos hq]
        have he : utf8_escape_string ['\\', '"'] = ['\\', '"'] := by decide
        rw [he]
        exact QuotedBody.esc QuotedBody.nil
      · rw [if_neg hq, utf8_cons]
        by_cases hctrl : (c.toNat < 0x20 || c.toNat == 0x7f) = true
        · rw [if_pos hctrl]
          exact QuotedBody.esc
            (QuotedBody.plain (hex_clean _ (hexDigitChar_mem _)).2.2.1
              (hex_clean _ (hexDigitChar_mem _)).2.2.2
              (QuotedBody.plain (hex_clean _ (hexDigitChar_mem _)).2.2.1
                (hex_clean _ (hexDigitChar_mem _)).2.2.2 QuotedBody.nil))
        · rw [if_neg hctrl]
          exact QuotedBody.plain hq hc QuotedBody.nil

theorem escapevar_special {var : List Char}
    (h : (var.length != 0 && has_csv_special_character var) = true) :
    stats_format_csv_escapevar var =
      '"' :: utf8_escape_string (csv_escape_quotes var) ++ ['"'] := by
  unfold stats_format_csv_escapevar
  rw [if_pos h]
  rw [show ('"' :: csv_escape_quotes var ++ ['"']) =
        ('"' :: csv_escape_quotes var) ++ ['"'] from rfl]
  rw [utf8_append, utf8_cons, if_neg (by decide)]
  have he : utf8_escape_string ['"'] = ['"'] := by decide
  rw [he]
  rfl

theorem escapevar_plain {var : List Char}
    (h : (var.length != 0 && has_csv_special_character var) = false) :
    stats_format_csv_escapevar var = utf8_escape_string var := by
  unfold stats_format_csv_escapevar
  rw [if_neg (by simp [h])]

theorem special_cond_iff (var : List Char) :
    (var.length != 0 && has_csv_special_character var) = true ↔
      var ≠ [] ∧ (';' ∈ var ∨ '\n' ∈ var ∨ var.head? = some '"') := by
  rw [Bool.and_eq_true]
  constructor
  · rintro ⟨h1, h2⟩
    refine ⟨by simpa [List.length_eq_zero] using h1, ?_⟩
    rcases Bool.or_eq_true _ _ |>.mp h2 with h3 | h3
    · rcases Bool.or_eq_true _ _ |>.mp h3 with h4 | h4
      · exact Or.inl (by simpa using h4)
      · exact Or.inr (Or.inl (by simpa using h4))
    · exact Or.inr (Or.inr (by simpa using h3))
  · rintro ⟨h1, h2⟩
    refine ⟨by simpa [List.length_eq_zero] using h1, ?_⟩
    rw [has_csv_special_character, Bool.or_eq_true, Bool.or_eq_true]
    rcases h2 with h3 | h3 | h3
    · exact Or.inl (Or.inl (by simpa using h3))
    · exact Or.inl (Or.inr (by simpa using h3))
    · exact Or.inr (by simpa using h3)

theorem goodField_escapevar {var : List Char} (hnb : '\\' ∉ var) :
    GoodField (stats_format_csv_escapevar var) := by
  by_cases h : (var.length != 0 && has_csv_special_character var) = true
  · exact Or.inr ⟨_, escapevar_special h, quotedBody_utf8_escape_quotes hnb⟩
  · have hf : (var.length != 0 && has_csv_special_character var) = false := by
      simpa using h
    rw [escapevar_plain hf]
    have hcond := (special_cond_iff var).not.mp h
    left
    by_cases hvar : var = []
    · subst hvar
      exact ⟨by simp [utf8_escape_string, concatMapChars], by simp [utf8_escape_string, concatMapChars]⟩
    · have hns : ¬(';' ∈ var ∨ '\n' ∈ var ∨ var.head? = some '"') := by
        intro hx
        exact hcond ⟨hvar, hx⟩
      push_neg at hns
      exact ⟨utf8_no_semi hns.1, utf8_head_ne_quote hns.2.2⟩

theorem no_newline_escapevar (var : List Char) :
    '\n' ∉ stats_format_csv_escapevar var := by
  by_cases h : (var.length != 0 && has_csv_special_character var) = true
  · rw [escapevar_special h]
    intro hx
    rcases List.mem_cons.mp hx with h1 | h1
    · exact absurd h1 (by decide)
    · rcases List.mem_append.mp h1 with h2 | h2
      · exact utf8_no_newline _ h2
      · simp at h2
  · rw [escapevar_plain (by simpa using h)]
    exact utf8_no_newline var

/-! ## The field splitter -/

theorem splitCSVAux_plain : ∀ (f acc rest : List Char), ';' ∉ f →
    (acc.isEmpty = true → f.head? ≠ some '"') →
    splitCSVAux (f ++ ';' :: rest) acc 0 =
      (acc.reverse ++ f) :: splitCSVAux rest [] 0
  | [], acc, rest, _, _ => by simp [splitCSVAux]
  | c :: f', acc, rest, hsemi, hh => by
      have hc : ¬(c = ';') := fun hcc => hsemi (hcc ▸ List.mem_cons_self _ _)
      have hq : ¬((acc.isEmpty && (decide (c = '"'))) = true) := by
        intro hx
        rw [Bool.and_eq_true] at hx
        have h2 := hh hx.1
        simp only [List.head?_cons, ne_eq, Option.some.injEq] at h2
        exact h2 (of_decide_eq_true hx.2)
      rw [List.cons_append]
      simp only [splitCSVAux]
      rw [if_neg hc, if_neg hq]
      rw [splitCSVAux_plain f' (c :: acc) rest
        (fun hm => hsemi (List.mem_cons_of_mem _ hm)) (by simp)]
      simp

theorem splitCSVAux_plain_end : ∀ (f acc : List Char), ';' ∉ f →
    (acc.isEmpty = true → f.head? ≠ some '"') →
    splitCSVAux f acc 0 = [acc.reverse ++ f]
  | [], acc, _, _ => by simp [splitCSVAux]
  | c :: f', acc, hsemi, hh => by
      have hc : ¬(c = ';') := fun hcc => hsemi (hcc ▸ List.mem_cons_self _ _)
      have hq : ¬((acc.isEmpty && (decide (c = '"'))) = true) := by
        intro hx
        rw [Bool.and_eq_true] at hx
        have h2 := hh hx.1
        simp only [List.head?_cons, ne_eq, Option.some.injEq] at h2
        exact h2 (of_decide_eq_true hx.2)
      simp only [splitCSVAux]
      rw [if_neg hc, if_neg hq]
      rw [splitCSVAux_plain_end f' (c :: acc)
        (fun hm => hsemi (List.mem_cons_of_mem _ hm)) (by simp)]
      simp

theorem splitCSVAux_quoted_body {body : List Char} (hb : QuotedBody body) :
    ∀ (acc tail : List Char),
      splitCSVAux (body ++ '"' :: tail) acc 1 =
        splitCSVAux tail ('"' :: body.reverse ++ acc) 0 := by
  induction hb with
  | nil =>
      intro acc tail
      exact rfl
  | @plain c body' h1 h2 hb ih =>
      intro acc tail
      rw [List.cons_append]
      simp only [splitCSVAux]
      rw [if_neg h2, if_neg h1]
      rw [ih (c :: acc) tail]
      have hL : ('"' :: (c :: body').reverse ++ acc) =
          ('"' :: body'.reverse ++ (c :: acc)) := by simp
      rw [hL]
  | @esc d body' hb ih =>
      intro acc tail
      rw [List.cons_append, List.cons_append]
      rw [show splitCSVAux ('\\' :: d :: (body' ++ '"' :: tail)) acc 1 =
            splitCSVAux (body' ++ '"' :: tail) (d :: '\\' :: acc) 1 from rfl]
      rw [ih (d :: '\\' :: acc) tail]
      have hL : ('"' :: ('\\' :: d :: body').reverse ++ acc) =
          ('"' :: body'.reverse ++ (d :: '\\' :: acc)) := by simp
      rw [hL]

theorem splitCSVAux_goodField {f : List Char} (hf : GoodField f) (rest : List Char) :
    splitCSVAux (f ++ ';' :: rest) [] 0 = f :: splitCSVAux rest [] 0 := by
  rcases hf with ⟨h1, h2⟩ | ⟨body, rfl, hb⟩
  · exact splitCSVAux_plain f [] rest h1 (fun _ => h2)
  · have hshape : (('"' :: body ++ ['"']) ++ ';' :: rest) =
        '"' :: (body ++ '"' :: (';' :: rest)) := by simp
    rw [hshape]
    rw [show splitCSVAux ('"' :: (body ++ '"' :: ';' :: rest)) [] 0 =
          splitCSVAux (body ++ '"' :: ';' :: rest) ['"'] 1 from rfl]
    rw [splitCSVAux_quoted_body hb ['"'] (';' :: rest)]
    rw [show splitCSVAux (';' :: rest) ('"' :: body.reverse ++ ['"']) 0 =
          ('"' :: body.reverse ++ ['"']).reverse :: splitCSVAux rest [] 0 from rfl]
    have hrev : ('"' :: body.reverse ++ ['"']).reverse = '"' :: body ++ ['"'] := by
      simp
    rw [hrev]

/-! ## Lines of the document -/

theorem linesAux_append : ∀ (row acc rest : List Char), '\n' ∉ row →
    linesAux (row ++ '\n' :: rest) acc = (acc.reverse ++ row) :: linesAux rest []
  | [], acc, rest, _ => by simp [linesAux]
  | c :: row', acc, rest, hn => by
      have hc : ¬(c = '\n') := fun h => hn (h ▸ List.mem_cons_self _ _)
      rw [List.cons_append]
      simp only [linesAux]
      rw [if_neg hc]
      rw [linesAux_append row' (c :: acc) rest (fun hm => hn (List.mem_cons_of_mem _ hm))]
      simp

theorem concatRows_append (a b : List (List Char)) :
    concatRows (a ++ b) = concatRows a ++ concatRows b := by
  induction a with
  | nil => rfl
  | cons r rs ih => simp [concatRows, ih]

theorem csvLines_concatRows : ∀ (R : List (List Char)), (∀ r ∈ R, '\n' ∉ r) →
    csvLines (concatRows (R.map (fun r => r ++ ['\n']))) = R ++ [[]]
  | [], _ => by simp [csvLines, csvLines.go, concatRows, linesAux]
  | r :: R', h => by
      simp only [List.map_cons, concatRows]
      have hshape : ((r ++ ['\n']) ++ concatRows (R'.map (fun r => r ++ ['\n']))) =
          r ++ '\n' :: concatRows (R'.map (fun r => r ++ ['\n'])) := by simp
      rw [hshape]
      show linesAux (r ++ '\n' :: concatRows (R'.map (fun r => r ++ ['\n']))) [] = _
      rw [linesAux_append r [] _ (h r (List.mem_cons_self _ _))]
      have hrest := csvLines_concatRows R' (fun r hr => h r (List.mem_cons_of_mem _ hr))
      rw [show csvLines (concatRows (R'.map (fun r => r ++ ['\n']))) =
            linesAux (concatRows (R'.map (fun r => r ++ ['\n']))) [] from rfl] at hrest
      rw [hrest]
      simp

/-! ## Cleanliness of the fixed row ingredients -/

theorem source_names_clean :
    ∀ s ∈ source_names, ';' ∉ s.data ∧ '\n' ∉ s.data ∧ s.data.head? ≠ some '"' := by
  decide

theorem getD_source_names_clean (n : Nat) :
    ';' ∉ ((source_names[n]?).getD "").data ∧ '\n' ∉ ((source_names[n]?).getD "").data ∧
      ((source_names[n]?).getD "").data.head? ≠ some '"' := by
  by_cases h : n < source_names.length
  · rw [List.getElem?_eq_getElem h]
    simp only [Option.getD_some]
    exact source_names_clean _ (List.getElem_mem h)
  · rw [List.getElem?_eq_none (Nat.le_of_not_lt h)]
    simp only [Option.getD_none]
    decide

theorem sourceNameOf_clean {sc : StatsCounter} {name : List Char}
    (h : sourceNameOf sc = some name) :
    ';' ∉ name ∧ '\n' ∉ name ∧ name.head? ≠ some '"' := by
  obtain ⟨hb1, hb2, hb3⟩ := getD_source_names_clean (sc.source &&& SCS_SOURCE_MASK)
  have hb1' : ';' ∉ (source_names.getD (sc.source &&& SCS_SOURCE_MASK) "").data := by
    rw [List.getD_eq_getElem?_getD]; exact hb1
  have hb2' : '\n' ∉ (source_names.getD (sc.source &&& SCS_SOURCE_MASK) "").data := by
    rw [List.getD_eq_getElem?_getD]; exact hb2
  have hb3' : (source_names.getD (sc.source &&& SCS_SOURCE_MASK) "").data.head? ≠ some '"' := by
    rw [List.getD_eq_getElem?_getD]; exact hb3
  simp only [sourceNameOf] at h
  split_ifs at h with h1 h2 h3 h4 h5
  · have hn : name = _ := (Option.some.inj h).symm
    subst hn
    decide
  · have hn : name = _ := (Option.some.inj h).symm
    subst hn
    decide
  · have hn : name = _ := (Option.some.inj h).symm
    subst hn
    refine ⟨fun hx => ?_, fun hx => ?_, by simp⟩
    · simp at hx
      exact hb1 hx
    · simp at hx
      exact hb2 hx
  · have hn : name = _ := (Option.some.inj h).symm
    subst hn
    refine ⟨fun hx => ?_, fun hx => ?_, by simp⟩
    · simp at hx
      exact hb1 hx
    · simp at hx
      exact hb2 hx
  · have hn : name = _ := (Option.some.inj h).symm
    subst hn
    exact ⟨hb1', hb2', hb3'⟩

theorem tag_no_backslash : ∀ t : SCType, '\\' ∉ tag_names t := by
  intro t
  cases t <;> decide

theorem digitChar_clean :
    ∀ m, m < 10 → Nat.digitChar m ≠ ';' ∧ Nat.digitChar m ≠ '\n' ∧ Nat.digitChar m ≠ '"' := by
  decide

theorem natDigitsAux_clean : ∀ (fuel n : Nat), ∀ c ∈ natDigitsAux fuel n,
    c ≠ ';' ∧ c ≠ '\n' ∧ c ≠ '"'
  | 0, n => by simp [natDigitsAux]
  | fuel + 1, n => by
      intro c hc
      rw [natDigitsAux] at hc
      split_ifs at hc with h
      · rcases List.mem_singleton.mp hc with rfl
        exact digitChar_clean n h
      · rcases List.mem_append.mp hc with hx | hx
        · exact natDigitsAux_clean fuel (n / 10) c hx
        · rcases List.mem_singleton.mp hx with rfl
          exact digitChar_clean _ (Nat.mod_lt _ (by omega))

theorem natDigits_clean (n : Nat) :
    ';' ∉ natDigits n ∧ '\n' ∉ natDigits n ∧ (natDigits n).head? ≠ some '"' := by
  refine ⟨fun hx => ?_, fun hx => ?_, fun hx => ?_⟩
  · exact (natDigitsAux_clean _ _ _ hx).1 rfl
  · exact (natDigitsAux_clean _ _ _ hx).2.1 rfl
  · rcases hd : natDigits n with _ | ⟨c, rest⟩
    · rw [hd] at hx; simp at hx
    · rw [hd] at hx
      simp only [List.head?_cons, Option.some.injEq] at hx
      have hm : c ∈ natDigits n := by rw [hd]; exact List.mem_cons_self _ _
      exact (natDigitsAux_clean _ _ _ hm).2.2 hx

/-! ## Decomposing one data row into its six fields -/

theorem row_split_aux (name e1 e2 e3 digits : List Char) (st : Char)
    (hn : GoodField name) (h1 : GoodField e1) (h2 : GoodField e2)
    (hst : st ≠ ';' ∧ st ≠ '"') (h3 : GoodField e3)
    (hd : ';' ∉ digits) (hdh : digits.head? ≠ some '"') :
    splitCSVAux
      (name ++ ';' :: (e1 ++ ';' :: (e2 ++ ';' :: (st :: ';' :: (e3 ++ ';' :: digits)))))
      [] 0 = [name, e1, e2, [st], e3, digits] := by
  have hstG : GoodField [st] :=
    Or.inl ⟨fun hx => hst.1 (List.mem_singleton.mp hx).symm, by simp [hst.2]⟩
  rw [splitCSVAux_goodField hn, splitCSVAux_goodField h1, splitCSVAux_goodField h2]
  rw [show (st :: ';' :: (e3 ++ ';' :: digits)) = ([st] ++ ';' :: (e3 ++ ';' :: digits))
        from rfl]
  rw [splitCSVAux_goodField hstG, splitCSVAux_goodField h3]
  rw [splitCSVAux_plain_end digits [] hd (fun _ => hdh)]
  simp

theorem row_fields (sc : StatsCounter) (name : List Char) (t : SCType)
    (hname : ';' ∉ name ∧ '\n' ∉ name ∧ name.head? ≠ some '"')
    (hid : '\\' ∉ sc.id.data) (hinst : '\\' ∉ sc.instance_.data) :
    splitCSVRow (stats_format_csv_row sc name t) =
      [name, stats_format_csv_escapevar sc.id.data,
       stats_format_csv_escapevar sc.instance_.data,
       [if sc.dynamic then 'd' else if sc.ref_cnt == 0 then 'o' else 'a'],
       stats_format_csv_escapevar (tag_names t),
       natDigits (sc.counters.get t)] := by
  obtain ⟨hd1, hd2, hd3⟩ := natDigits_clean (sc.counters.get t)
  have ht : stats_format_csv_row sc name t =
      name ++ ';' :: (stats_format_csv_escapevar sc.id.data
        ++ ';' :: (stats_format_csv_escapevar sc.instance_.data
        ++ ';' :: ((if sc.dynamic then 'd' else if sc.ref_cnt == 0 then 'o' else 'a')
        :: ';' :: (stats_format_csv_escapevar (tag_names t)
        ++ ';' :: natDigits (sc.counters.get t))))) := by
    simp [stats_format_csv_row]
  show splitCSVAux (stats_format_csv_row sc name t) [] 0 = _
  rw [ht]
  exact row_split_aux name (stats_format_csv_escapevar sc.id.data)
    (stats_format_csv_escapevar sc.instance_.data)
    (stats_format_csv_escapevar (tag_names t)) (natDigits (sc.counters.get t))
    (if sc.dynamic then 'd' else if sc.ref_cnt == 0 then 'o' else 'a')
    (Or.inl ⟨hname.1, hname.2.2⟩)
    (goodField_escapevar hid) (goodField_escapevar hinst)
    (by constructor <;> split_ifs <;> decide)
    (goodField_escapevar (tag_no_backslash t)) hd1 hd3

theorem row_no_newline {sc : StatsCounter} {name : List Char}
    (h : sourceNameOf sc = some name) (t : SCType) :
    '\n' ∉ stats_format_csv_row sc name t := by
  obtain ⟨-, hn2, -⟩ := sourceNameOf_clean h
  intro hx
  simp only [stats_format_csv_row] at hx
  rcases List.mem_append.mp hx with hx | hx
  swap
  · rcases List.mem_cons.mp hx with hx | hx
    · exact absurd hx (by decide)
    · exact (natDigits_clean _).2.1 hx
  rcases List.mem_append.mp hx with hx | hx
  swap
  · rcases List.mem_cons.mp hx with hx | hx
    · exact absurd hx (by decide)
    rcases List.mem_cons.mp hx with hx | hx
    · revert hx
      split_ifs <;> decide
    rcases List.mem_cons.mp hx with hx | hx
    · exact absurd hx (by decide)
    · exact no_newline_escapevar _ hx
  rcases List.mem_append.mp hx with hx | hx
  swap
  · rcases List.mem_cons.mp hx with hx | hx
    · exact absurd hx (by decide)
    · exact no_newline_escapevar _ hx
  rcases List.mem_append.mp hx with hx | hx
  · exact hn2 hx
  · rcases List.mem_cons.mp hx with hx | hx
    · exact absurd hx (by decide)
    · exact no_newline_escapevar _ hx

/-! ## The rows a record contributes -/

theorem mem_recordRows {sc : StatsCounter} {r : List Char} (h : r ∈ recordRows sc) :
    ∃ name t, sourceNameOf sc = some name ∧
      (sc.live_mask &&& (1 <<< SCType.toNat t) != 0) = true ∧
      r = stats_format_csv_row sc name t := by
  simp only [recordRows] at h
  rcases hs : sourceNameOf sc with _ | name
  · rw [hs] at h
    simp at h
  · rw [hs] at h
    simp only at h
    rcases List.mem_map.mp h with ⟨t, ht, rfl⟩
    exact ⟨name, t, rfl, (List.mem_filter.mp ht).2, rfl⟩

theorem recordRows_mem {sc : StatsCounter} {name : List Char} {t : SCType}
    (hs : sourceNameOf sc = some name)
    (hl : (sc.live_mask &&& (1 <<< SCType.toNat t) != 0) = true) :
    stats_format_csv_row sc name t ∈ recordRows sc := by
  simp only [recordRows, hs]
  exact List.mem_map_of_mem _
    (List.mem_filter.mpr ⟨by cases t <;> decide, hl⟩)

theorem mem_hashRows_of_mem {l : List (Nat × StatsCounter)} {p : Nat × StatsCounter}
    (hp : p ∈ l) {r : List Char} (hr : r ∈ recordRows p.2) : r ∈ hashRows l := by
  induction l with
  | nil => cases hp
  | cons q rest ih =>
      simp only [hashRows]
      rcases List.mem_cons.mp hp with rfl | hp2
      · exact List.mem_append.mpr (Or.inl hr)
      · exact List.mem_append.mpr (Or.inr (ih hp2))

theorem hashRows_no_newline : ∀ (l : List (Nat × StatsCounter)), ∀ r ∈ hashRows l, '\n' ∉ r
  | [] => by simp [hashRows]
  | p :: rest => by
      intro r hr
      simp only [hashRows] at hr
      rcases List.mem_append.mp hr with hx | hx
      · rcases mem_recordRows hx with ⟨name, t, hs, -, rfl⟩
        exact row_no_newline hs t
      · exact hashRows_no_newline rest r hx

/-! ## From the generator to the list of rows -/

theorem rowsForTypes_eq {sc : StatsCounter} {name : List Char}
    (hs : sourceNameOf sc = some name) : ∀ ts : List SCType,
    rowsForTypes sc ts =
      some (concatRows
        (((ts.filter (fun t => sc.live_mask &&& (1 <<< SCType.toNat t) != 0)).map
          (stats_format_csv_row sc name)).map (fun r => r ++ ['\n'])))
  | [] => rfl
  | t :: ts => by
      by_cases hl : (sc.live_mask &&& (1 <<< SCType.toNat t) != 0) = true
      · simp only [rowsForTypes, if_pos hl, hs, rowsForTypes_eq hs ts]
        simp [List.filter_cons, hl, concatRows]
      · simp only [rowsForTypes, if_neg hl, rowsForTypes_eq hs ts]
        simp [List.filter_cons, hl]

theorem rowsForTypes_none {sc : StatsCounter} (hs : sourceNameOf sc = none) :
    ∀ (ts : List SCType) (a : List Char), rowsForTypes sc ts = some a → a = []
  | [], a, h => (Option.some.inj h).symm
  | t :: ts, a, h => by
      by_cases hl : (sc.live_mask &&& (1 <<< SCType.toNat t) != 0) = true
      · rw [rowsForTypes, if_pos hl] at h
        simp [hs] at h
      · rw [rowsForTypes, if_neg hl] at h
        exact rowsForTypes_none hs ts a h

theorem stats_format_csv_eq {sc : StatsCounter} {a : List Char}
    (h : stats_format_csv sc = some a) :
    a = concatRows ((recordRows sc).map (fun r => r ++ ['\n'])) := by
  rcases hs : sourceNameOf sc with _ | name
  · rw [rowsForTypes_none hs scTypeList a h]
    simp [recordRows, hs, concatRows]
  · rw [stats_format_csv, rowsForTypes_eq hs scTypeList] at h
    rw [(Option.some.inj h).symm]
    simp [recordRows, hs]

theorem csvEntriesAux_eq : ∀ (l : List (Nat × StatsCounter)) (body : List Char),
    csvEntriesAux l = some body →
    body = concatRows ((hashRows l).map (fun r => r ++ ['\n']))
  | [], body, h => by
      rw [(Option.some.inj h).symm]
      simp [hashRows, concatRows]
  | p :: rest, body, h => by
      simp only [csvEntriesAux] at h
      rcases hf : stats_format_csv p.2 with _ | a
      · rw [hf] at h
        simp at h
      · rw [hf] at h
        rcases he : csvEntriesAux rest with _ | b
        · rw [he] at h
          simp at h
        · rw [he] at h
          simp only [Option.some.injEq] at h
          rw [h.symm, stats_format_csv_eq hf, csvEntriesAux_eq rest b he]
          simp only [hashRows, List.map_append, concatRows_append]

theorem generate_lines {st : StatsState} {csv : List Char}
    (h : stats_generate_csv st = some csv) :
    csvLines csv = csv_header_row :: (hashRows st.counter_hash ++ [[]]) := by
  simp only [stats_generate_csv] at h
  rcases he : csvEntriesAux st.counter_hash with _ | body
  · rw [he] at h
    simp at h
  · rw [he] at h
    simp only [Option.some.injEq] at h
    rw [h.symm, csvEntriesAux_eq _ _ he]
    show linesAux (csv_header_row ++ '\n' ::
      concatRows ((hashRows st.counter_hash).map (fun r => r ++ ['\n']))) [] = _
    rw [linesAux_append csv_header_row [] _ (by decide)]
    have hrest := csvLines_concatRows (hashRows st.counter_hash)
      (hashRows_no_newline st.counter_hash)
    rw [show csvLines (concatRows ((hashRows st.counter_hash).map (fun r => r ++ ['\n']))) =
          linesAux (concatRows ((hashRows st.counter_hash).map (fun r => r ++ ['\n']))) []
        from rfl] at hrest
    rw [hrest]
    simp

theorem generate_dataRows {st : StatsState} {csv : List Char}
    (h : stats_generate_csv st = some csv) :
    dataRows csv = hashRows st.counter_hash ∧
      (csvLines csv).head? = some csv_header_row := by
  have hl := generate_lines h
  constructor
  · rw [dataRows, hl]
    simp
  · rw [hl]
    rfl

theorem mem_hashRows : ∀ {l : List (Nat × StatsCounter)} {r : List Char},
    r ∈ hashRows l → ∃ p ∈ l, r ∈ recordRows p.2 := by
  intro l
  induction l with
  | nil => intro r hr; simp [hashRows] at hr
  | cons q rest ih =>
      intro r hr
      simp only [hashRows] at hr
      rcases List.mem_append.mp hr with hx | hx
      · exact ⟨q, List.mem_cons_self _ _, hx⟩
      · obtain ⟨p, hp, hrp⟩ := ih hx
        exact ⟨p, List.mem_cons_of_mem _ hp, hrp⟩

/-! ## Claims C7 and C8 -/

/-- C7 (amended): the escaper wraps a field in double quotes with interior
quotes backslash-escaped (the result passing through the generic text-escaping
pass) if and only if the field is non-empty and contains `';'`, contains a
newline, or begins with a double quote, and otherwise passes the field through
that pass unquoted; and whenever the export succeeds and no exported record
carries a backslash in its id or instance, the document starts with the header
row `SourceName;SourceId;SourceInstance;State;Type;Number` and every data row
splits on unescaped `';'` into exactly six fields. -/
theorem C7_escaping_and_six_fields :
    (∀ var : List Char,
      (var ≠ [] ∧ (';' ∈ var ∨ '\n' ∈ var ∨ var.head? = some '"') →
        stats_format_csv_escapevar var =
          '"' :: utf8_escape_string (csv_escape_quotes var) ++ ['"']) ∧
      (¬(var ≠ [] ∧ (';' ∈ var ∨ '\n' ∈ var ∨ var.head? = some '"')) →
        stats_format_csv_escapevar var = utf8_escape_string var)) ∧
    ∀ (st : StatsState) (csv : List Char),
      stats_generate_csv st = some csv →
      (∀ p ∈ st.counter_hash, '\\' ∉ p.2.id.data ∧ '\\' ∉ p.2.instance_.data) →
      (csvLines csv).head? = some csv_header_row ∧
        ∀ row ∈ dataRows csv, (splitCSVRow row).length = 6 := by
  constructor
  · intro var
    constructor
    · intro hc
      exact escapevar_special ((special_cond_iff var).mpr hc)
    · intro hc
      refine escapevar_plain ?_
      rcases hb : (var.length != 0 && has_csv_special_character var) with _ | _
      · rfl
      · exact absurd ((special_cond_iff var).mp hb) hc
  · intro st csv hgen hnb
    obtain ⟨hdr, hhd⟩ := generate_dataRows hgen
    refine ⟨hhd, ?_⟩
    intro row hrow
    rw [hdr] at hrow
    obtain ⟨p, hp, hr⟩ := mem_hashRows hrow
    obtain ⟨name, t, hs, hl, rfl⟩ := mem_recordRows hr
    rw [row_fields p.2 name t (sourceNameOf_clean hs) (hnb p hp).1 (hnb p hp).2]
    rfl

/-- C7 witness: the amended claim at a concrete field and a concrete registry:
`"a;b"` is quote-wrapped, and the one-record `stFile` registry exports a
header line plus six-field data rows. -/
theorem C7_escaping_and_six_fields_witness :
    stats_format_csv_escapevar "a;b".data =
      '"' :: utf8_escape_string (csv_escape_quotes "a;b".data) ++ ['"'] ∧
    (csvLines ((stats_generate_csv stFile).getD [])).head? = some csv_header_row ∧
    ∀ row ∈ dataRows ((stats_generate_csv stFile).getD []),
      (splitCSVRow row).length = 6 := by
  refine ⟨(C7_escaping_and_six_fields.1 "a;b".data).1 (by decide), ?_⟩
  exact C7_escaping_and_six_fields.2 stFile ((stats_generate_csv stFile).getD [])
    (by decide) (by decide)

/-- C7 counterexample to the unamended claim: the record `scBack` (id `;\`)
produces a CSV document whose single data row splits into 2 fields, not 6 —
the backslash the escaper leaves unescaped hides the closing quote from any
reader that honours backslash escapes, so "exactly 6 fields per data row"
fails without the no-backslash proviso. -/
theorem C7_backslash_counterexample :
    (stats_generate_csv stBack).isSome = true ∧
    (dataRows ((stats_generate_csv stBack).getD [])).map
      (fun r => (splitCSVRow r).length) = [2] := by
  decide

/-- C8: in every data row of a successful export, the State field (the fourth
`';'`-separated field) is `d` whenever the record's dynamic flag is set,
otherwise `o` when its ref_count is 0, and otherwise `a`. -/
theorem C8_state_field (st : StatsState) (csv : List Char) (p : Nat × StatsCounter)
    (t : SCType) (name : List Char)
    (hgen : stats_generate_csv st = some csv)
    (hp : p ∈ st.counter_hash)
    (hlive : (p.2.live_mask &&& (1 <<< SCType.toNat t) != 0) = true)
    (hid : '\\' ∉ p.2.id.data) (hinst : '\\' ∉ p.2.instance_.data)
    (hname : sourceNameOf p.2 = some name) :
    stats_format_csv_row p.2 name t ∈ dataRows csv ∧
    ((p.2.dynamic = true →
        (splitCSVRow (stats_format_csv_row p.2 name t))[3]? = some ['d']) ∧
     (p.2.dynamic = false → p.2.ref_cnt = 0 →
        (splitCSVRow (stats_format_csv_row p.2 name t))[3]? = some ['o']) ∧
     (p.2.dynamic = false → p.2.ref_cnt ≠ 0 →
        (splitCSVRow (stats_format_csv_row p.2 name t))[3]? = some ['a'])) := by
  obtain ⟨hdr, -⟩ := generate_dataRows hgen
  have hrw := row_fields p.2 name t (sourceNameOf_clean hname) hid hinst
  refine ⟨?_, ?_, ?_, ?_⟩
  · rw [hdr]
    exact mem_hashRows_of_mem hp (recordRows_mem hname hlive)
  · intro hdyn
    rw [hrw]
    simp [hdyn]
  · intro hdyn href
    rw [hrw]
    simp [hdyn, href]
  · intro hdyn href
    rw [hrw]
    simp [hdyn, href]

/-- C8 witness: the `stFile` registry's single row carries state `a` (static,
referenced record). -/
theorem C8_state_field_witness :
    stats_format_csv_row scFile "src.file".data SCType.processed ∈
      dataRows ((stats_generate_csv stFile).getD []) ∧
    (splitCSVRow (stats_format_csv_row scFile "src.file".data SCType.processed))[3]? =
      some ['a'] := by
  have h := C8_state_field stFile ((stats_generate_csv stFile).getD []) (5, scFile)
    SCType.processed "src.file".data (by decide) (by decide) (by decide) (by decide)
    (by decide) (by decide)
  exact ⟨h.1, h.2.2.2 (by decide) (by decide)⟩

end SyslogNgStats
